import Mathlib

/-!
Shallow embedding of `daemon_monitor.py` (docker-watchdog).

The script is a one-shot supervisor for a container-runtime daemon:
it connects with bounded retry (`connect_docker_service`), checks
aggregate container counts (`__main__` health loop), restarts the
daemon service once if degraded (`restart_docker`), then resolves a
target container set, waits for it to settle, and starts the
remainder (`__main__` resolution / settle / start loops).

External collaborators (the runtime client and the service-manager
control channel) are modelled as an oracle `World` of response
functions.  Each loop of the source is a structural-recursive
function over the remaining attempt count that returns the list of
observable events together with its result.  Python `exit()` (no
argument, exit status 0), natural completion, and an uncaught
exception are the three terminal outcomes.
-/

set_option maxHeartbeats 1000000

namespace DaemonMonitor

/-- Observable events of one process run: a version-query attempt
(`get_docker_version` call), a sleep with its duration, log lines of the
three levels used by the source, the service-restart command sent over
the control channel, the per-iteration container-counts log line, a
container `reload()` call, and a container `start()` command. -/
inductive Event where
  | vAttempt (ok : Bool)
  | sleep (sec : Nat)
  | logw (tag : String)
  | logi (tag : String)
  | loge (tag : String)
  | restartCmd
  | infoObs (total running : Nat)
  | reloadCall (c : String)
  | startCmd (c : String)
  deriving DecidableEq

/-- Terminal state of the process: explicit `exit()` with the resulting
exit code, natural completion of the script, or an uncaught exception. -/
inductive Outcome where
  | exited (code : Nat)
  | completed
  | crashed
  deriving DecidableEq

/-- Exit status of the operating-system process for each outcome.
Python `exit()` with no argument exits with status 0; natural
completion exits with status 0; an uncaught exception exits with a
nonzero status (CPython uses 1). -/
def exitStatus : Outcome → Nat
  | .exited c => c
  | .completed => 0
  | .crashed => 1

/-- Python truthiness of the optional version string returned by
`get_docker_version`: `None` (exception or missing key) and the empty
string are falsy, any other string is truthy. -/
def pyTruthy : Option String → Bool
  | none => false
  | some s => !(s == "")

/-- Retry loop body of `connect_docker_service` (lines 59-66): attempt
index `i`, `rem + 1` attempts remaining.  A truthy version stops the
loop; otherwise a warning is logged and, unless this was the last
attempt, the loop sleeps `tm` seconds and retries. -/
def connectRem (q : Nat → Option String) (tm : Nat) : Nat → Nat → List Event × Bool
  | _, 0 => ([], false)
  | i, rem + 1 =>
    if pyTruthy (q i) then ([Event.vAttempt true], true)
    else
      let evs := [Event.vAttempt false, Event.logw "cant-get-version"]
      if rem == 0 then (evs, false)
      else
        let r := connectRem q tm (i + 1) rem
        (evs ++ [Event.logi "retry-in", Event.sleep tm] ++ r.1, r.2)

/-- `connect_docker_service(attempts_qty, attempts_tm_sec)` (lines
55-72): runs the retry loop from attempt 0; on success logs the
version and returns a present client, otherwise logs an error and
returns a null client (modelled as the `Bool` component). -/
def connect_docker_service (q : Nat → Option String) (attempts_qty attempts_tm_sec : Nat) :
    List Event × Bool :=
  let r := connectRem q attempts_tm_sec 0 attempts_qty
  if r.2 then (r.1 ++ [Event.logi "docker-version"], true)
  else (r.1 ++ [Event.loge "cant-get-version-final"], false)

/-- `restart_docker()` (lines 75-90): logs, issues the RestartUnit
command over the control channel, and logs (and swallows) a channel
error when the restart fails. -/
def restart_docker (ok : Bool) : List Event :=
  [Event.logi "restarting-docker", Event.restartCmd]
    ++ (if ok then [] else [Event.loge "cant-restart-docker"])

/-- `verify_docker_client(client, restart)` (lines 93-98): when the
client is absent it logs an error, optionally triggers
`restart_docker`, and calls `exit()`.  The `Bool` result is whether
the caller proceeds. -/
def verify_docker_client (present restart restartOk : Bool) : List Event × Bool :=
  if present then ([], true)
  else
    ([Event.loge "docker-not-available"]
       ++ (if restart then restart_docker restartOk else []), false)

/-- Healthy condition of the `__main__` health loop (line 154):
`qty == 0 or (qty > 0 and running > 0)`. -/
def healthyCounts (o : Nat × Nat) : Bool :=
  o.1 == 0 || (decide (0 < o.1) && decide (0 < o.2))

/-- Degraded condition tested after the health loop (line 160):
`qty > 0 and running == 0`. -/
def degradedFinal (last : Nat × Nat) : Bool :=
  decide (0 < last.1) && (last.2 == 0)

/-- Health-check loop of `__main__` (lines 149-159), attempt index `i`
with `rem + 1` iterations remaining.  `info i = none` models
`docker_client.info()` raising: the exception is not caught, so the
loop result is `none` (crash).  On success the result carries the
number of iterations run, the number of sleeps performed, and the last
observed counts pair. -/
def healthRem (info : Nat → Option (Nat × Nat)) (tm : Nat) :
    Nat → Nat → List Event × Option (Nat × Nat × (Nat × Nat))
  | _, 0 => ([], some (0, 0, (0, 0)))
  | i, rem + 1 =>
    match info i with
    | none => ([], none)
    | some o =>
      if healthyCounts o then ([Event.infoObs o.1 o.2], some (1, 0, o))
      else
        let evs := [Event.infoObs o.1 o.2, Event.logw "zero-running"]
        if rem == 0 then (evs, some (1, 0, o))
        else
          let r := healthRem info tm (i + 1) rem
          match r.2 with
          | none => (evs ++ [Event.logi "wait-for", Event.sleep tm] ++ r.1, none)
          | some (a, s, last) =>
            (evs ++ [Event.logi "wait-for", Event.sleep tm] ++ r.1, some (a + 1, s + 1, last))

/-- `docker_container_start_list`: an insertion-ordered dictionary from
container name to the container object (identified by its name) or the
`None` tombstone written by the settle loop. -/
abbrev CDict := List (String × Option String)

/-- Keys of the dictionary, in insertion order. -/
def keys (d : CDict) : List String := d.map (fun kv => kv.1)

/-- `dict_remove_none` (lines 44-45): drops every entry whose value is
`None`, keeping order. -/
def dict_remove_none (d : CDict) : CDict := d.filter (fun kv => kv.2 != none)

/-- Python dictionary assignment `d[k] = v`: replace in place when the
key exists (keeping its position), otherwise append. -/
def dictInsert (k : String) (v : Option String) (d : CDict) : CDict :=
  if d.any (fun kv => kv.1 == k) then
    d.map (fun kv => if kv.1 == k then (k, v) else kv)
  else d ++ [(k, v)]

/-- Result of `docker_client.containers.get(name)`: the container, a
`NotFound` error, or a generic `APIError`. -/
inductive GetRes where
  | found (c : String)
  | notFound
  | apiError
  deriving DecidableEq

/-- Exact-name resolution loop (lines 170-178): each name is looked
up; `NotFound` logs a warning and skips the name, `APIError` logs an
error and skips the name, a found container is inserted keyed by its
name. -/
def resolveExact (g : String → GetRes) : List String → CDict → List Event × CDict
  | [], d => ([], d)
  | i :: rest, d =>
    match g i with
    | .found c => resolveExact g rest (dictInsert c (some c) d)
    | .notFound =>
      let r := resolveExact g rest d
      (Event.logw "container-not-found" :: r.1, r.2)
    | .apiError =>
      let r := resolveExact g rest d
      (Event.loge "cant-get-container" :: r.1, r.2)

/-- Insert every container of one filter-query result, keyed by name. -/
def insertAll (cs : List String) (d : CDict) : CDict :=
  cs.foldl (fun acc c => dictInsert c (some c) acc) d

/-- Filter-name resolution loop (lines 180-189): each filter lists all
matching containers; an empty match logs a warning, an `APIError` logs
an error and skips the filter, matches are inserted keyed by name. -/
def resolveFilter (l : String → Option (List String)) : List String → CDict → List Event × CDict
  | [], d => ([], d)
  | f :: rest, d =>
    match l f with
    | some cs =>
      let evs := if cs.length == 0 then [Event.logw "containers-not-found"] else []
      let r := resolveFilter l rest (insertAll cs d)
      (evs ++ r.1, r.2)
    | none =>
      let r := resolveFilter l rest d
      (Event.loge "cant-list-containers" :: r.1, r.2)

/-- Status scan of one settle iteration (lines 197-200): reload every
entry in order and overwrite with the `None` tombstone those whose
status is `running`.  `reload c = none` models `v.reload()` raising an
uncaught exception, as does a `None` value reaching `v.reload()`;
either yields `none` (crash). -/
def settleScan (reload : String → Option String) : CDict → List Event × Option CDict
  | [] => ([], some [])
  | (k, v) :: rest =>
    match v with
    | none => ([], none)
    | some c =>
      match reload c with
      | none => ([Event.reloadCall c], none)
      | some st =>
        let v2 : Option String := if st == "running" then none else some c
        let r := settleScan reload rest
        match r.2 with
        | none => (Event.reloadCall c :: r.1, none)
        | some d1 => (Event.reloadCall c :: r.1, some ((k, v2) :: d1))

/-- Settle loop of `__main__` (lines 195-210), iteration index `i` with
`rem + 1` iterations remaining: scan statuses, drop the tombstones,
stop early when the dictionary became empty, otherwise log the
still-not-running names and sleep unless this was the last
iteration. -/
def settleRem (reload : Nat → String → Option String) (tm : Nat) :
    Nat → Nat → CDict → List Event × Option CDict
  | _, 0, d => ([], some d)
  | i, rem + 1, d =>
    let sc := settleScan (reload i) d
    match sc.2 with
    | none => (sc.1, none)
    | some d1 =>
      let d2 := dict_remove_none d1
      if d2.length == 0 then (sc.1, some d2)
      else
        let evs := sc.1 ++ [Event.logi "not-running-list"]
        if rem == 0 then (evs, some d2)
        else
          let r := settleRem reload tm (i + 1) rem d2
          (evs ++ [Event.logi "wait-for", Event.sleep tm] ++ r.1, r.2)

/-- Settle phase entry (line 195): the loop bound is `attempts_qty`
when the dictionary is non-empty and 0 otherwise. -/
def settlePhase (reload : Nat → String → Option String) (qty tm : Nat) (d : CDict) :
    List Event × Option CDict :=
  if d.length == 0 then ([], some d) else settleRem reload tm 0 qty d

/-- Start loop of `__main__` (lines 212-218): for every remaining
entry, log, issue `start()`, and log (and swallow) a per-container
`APIError`.  A `None` value reaching `v.start()` would raise after the
log line; the `Bool` result is `false` on such a crash. -/
def startPhase (ok : String → Bool) : CDict → List Event × Bool
  | [] => ([], true)
  | (k, v) :: rest =>
    match v with
    | none => ([Event.logi "starting-container"], false)
    | some c =>
      let evs := [Event.logi "starting-container", Event.startCmd k]
        ++ (if ok c then [] else [Event.loge "cant-start-container"])
      let r := startPhase ok rest
      (evs ++ r.1, r.2)

/-- Responses of the two external collaborators during one run: the
version answers of the first and the second connection loop, the
per-iteration counts of `info()` (`none` = the call raises), the
service-manager restart success, the per-name `containers.get`
answers, the per-filter `containers.list` answers (`none` = the call
raises `APIError`), the per-iteration per-container status after
`reload()` (`none` = the call raises), and the per-container `start()`
success. -/
structure World where
  version1 : Nat → Option String
  info : Nat → Option (Nat × Nat)
  restartOk : Bool
  version2 : Nat → Option String
  getC : String → GetRes
  listC : String → Option (List String)
  reloadSt : Nat → String → Option String
  startOk : String → Bool

/-- One complete process run: the event trace and the terminal
outcome. -/
structure MainRun where
  trace : List Event
  outcome : Outcome
  deriving DecidableEq

/-- Container-reconciliation part of `__main__` (lines 168-218):
resolution of both selector kinds, tombstone cleanup, the monitored
list log line, the settle phase, and the start phase.  The `Bool`
result is `true` when the script reaches its natural end. -/
def reconcilePhase (w : World) (qty tm : Nat) (cl fl : List String) : List Event × Bool :=
  let r1 := resolveExact w.getC cl []
  let r2 := resolveFilter w.listC fl r1.2
  let d := dict_remove_none r2.2
  let evs0 := r1.1 ++ r2.1 ++ [Event.logi "monitored-containers"]
  let s := settlePhase w.reloadSt qty tm d
  match s.2 with
  | none => (evs0 ++ s.1, false)
  | some d2 =>
    let st := startPhase w.startOk d2
    (evs0 ++ s.1 ++ st.1, st.2)

/-- The `__main__` pipeline (lines 139-218): connect, verify with
restart allowed, health loop, one restart-and-reconnect cycle when the
daemon is degraded, verify without restart, then reconciliation.
The CLI restricts `qty` to 1..5, so the health loop always runs at
least one iteration before the line-160 comparison. -/
def mainRun (w : World) (qty tm : Nat) (cl fl : List String) : MainRun :=
  let c1 := connect_docker_service w.version1 qty tm
  if c1.2 then
    let h := healthRem w.info tm 0 qty
    match h.2 with
    | none => { trace := c1.1 ++ h.1, outcome := .crashed }
    | some (_, _, last) =>
      if degradedFinal last then
        let rEvs := Event.loge "failed-to-start-containers" :: restart_docker w.restartOk
        let c2 := connect_docker_service w.version2 qty tm
        if c2.2 then
          let rc := reconcilePhase w qty tm cl fl
          { trace := c1.1 ++ h.1 ++ rEvs ++ c2.1 ++ rc.1,
            outcome := if rc.2 then .completed else .crashed }
        else
          { trace := c1.1 ++ h.1 ++ rEvs ++ c2.1
              ++ (verify_docker_client false false w.restartOk).1,
            outcome := .exited 0 }
      else
        let rc := reconcilePhase w qty tm cl fl
        { trace := c1.1 ++ h.1 ++ rc.1, outcome := if rc.2 then .completed else .crashed }
  else
    { trace := c1.1 ++ (verify_docker_client false true w.restartOk).1, outcome := .exited 0 }

/-- Event classifiers and counters used by the claims. -/
def isVAttempt : Event → Bool
  | .vAttempt _ => true
  | _ => false

def isRestartCmd : Event → Bool
  | .restartCmd => true
  | _ => false

def countV (evs : List Event) : Nat := (evs.filter isVAttempt).length

def countRestart (evs : List Event) : Nat := (evs.filter isRestartCmd).length

def sleepSecs (evs : List Event) : List Nat :=
  evs.filterMap (fun e => match e with | .sleep s => some s | _ => none)

def startCmds (evs : List Event) : List String :=
  evs.filterMap (fun e => match e with | .startCmd c => some c | _ => none)

def countEvent (e0 : Event) (evs : List Event) : Nat :=
  (evs.filter (fun e => decide (e = e0))).length

/-- Suffix of the trace from the first restart command on (the whole
trace contains no restart when the result equals the empty list). -/
def afterFirstRestart (evs : List Event) : List Event :=
  evs.dropWhile (fun e => !isRestartCmd e)

/-- Canonical dictionary: every value is the container named by its
key.  This holds for every dictionary the script builds, because both
resolution loops insert `d[container.name] = container`. -/
def Canon (d : CDict) : Prop := ∀ kv ∈ d, kv.2 = some kv.1

/-- Cumulative survivor set of the settle loop: starting from
dictionary `d` at iteration index `i`, `survivors reload d i j` is the
set remaining at the entry of iteration `i + j`, i.e. `d` with every
member observed running during iterations `i .. i + j - 1` removed. -/
def survivors (reload : Nat → String → Option String) (d : CDict) : Nat → Nat → CDict
  | _, 0 => d
  | i, j + 1 =>
    (survivors reload d i j).filter (fun kv => decide (reload (i + j) kv.1 ≠ some "running"))

/-- Benign collaborator behaviour used as the base of the concrete
scenarios below: connecting always succeeds, the daemon reports zero
containers, lookups find nothing, reloads answer `running`, starts
succeed. -/
def wBase : World where
  version1 := fun _ => some "18.06"
  info := fun _ => some (0, 0)
  restartOk := true
  version2 := fun _ => some "18.06"
  getC := fun _ => GetRes.notFound
  listC := fun _ => some []
  reloadSt := fun _ _ => some "running"
  startOk := fun _ => true

/-- Scenario: every version query of both connection loops fails. -/
def wAllFail : World :=
  { wBase with version1 := fun _ => none, version2 := fun _ => none }

/-- Scenario: the daemon connects but `info()` raises on every call. -/
def wInfoRaise : World :=
  { wBase with info := fun _ => none }

/-- Scenario: the daemon is degraded (5 containers, 0 running) on every
health observation and the post-restart reconnection always fails. -/
def wDegraded : World :=
  { wBase with info := fun _ => some (5, 0), version2 := fun _ => none }

/-- Scenario: connection and health check succeed, the exact name `db`
resolves, but every container `reload()` call raises. -/
def wReloadRaise : World :=
  { wBase with info := fun _ => some (2, 1),
               getC := fun s => GetRes.found s,
               reloadSt := fun _ _ => none }

/-- Lookup oracle resolving the exact name `web` to the container
`web`. -/
def getWeb : String → GetRes :=
  fun s => if s == "web" then GetRes.found "web" else GetRes.notFound

/-- List oracle resolving the substring filter `we` to the single
container `web`. -/
def listWe : String → Option (List String) :=
  fun s => if s == "we" then some ["web"] else some []

/-! ### Counting helpers -/

@[simp]
lemma countV_nil : countV [] = 0 := rfl

@[simp]
lemma countRestart_nil : countRestart [] = 0 := rfl

@[simp]
lemma sleepSecs_nil : sleepSecs [] = [] := rfl

@[simp]
lemma startCmds_nil : startCmds [] = [] := rfl

@[simp]
lemma countV_append (a b : List Event) : countV (a ++ b) = countV a + countV b := by
  simp [countV, List.filter_append]

@[simp]
lemma countRestart_append (a b : List Event) :
    countRestart (a ++ b) = countRestart a + countRestart b := by
  simp [countRestart, List.filter_append]

@[simp]
lemma sleepSecs_append (a b : List Event) :
    sleepSecs (a ++ b) = sleepSecs a ++ sleepSecs b := by
  simp [sleepSecs, List.filterMap_append]

@[simp]
lemma startCmds_append (a b : List Event) :
    startCmds (a ++ b) = startCmds a ++ startCmds b := by
  simp [startCmds, List.filterMap_append]

@[simp]
lemma countV_cons (e : Event) (l : List Event) :
    countV (e :: l) = (if isVAttempt e then 1 else 0) + countV l := by
  simp only [countV, List.filter_cons]
  split <;> simp_all <;> omega

@[simp]
lemma countRestart_cons (e : Event) (l : List Event) :
    countRestart (e :: l) = (if isRestartCmd e then 1 else 0) + countRestart l := by
  simp only [countRestart, List.filter_cons]
  split <;> simp_all <;> omega

@[simp]
lemma sleepSecs_cons (e : Event) (l : List Event) :
    sleepSecs (e :: l)
      = (match e with | Event.sleep s => [s] | _ => []) ++ sleepSecs l := by
  cases e <;> rfl

@[simp]
lemma startCmds_cons (e : Event) (l : List Event) :
    startCmds (e :: l)
      = (match e with | Event.startCmd c => [c] | _ => []) ++ startCmds l := by
  cases e <;> rfl

/-! ### Connection loop lemmas -/

lemma connectRem_succ (q : Nat → Option String) (tm i rem : Nat) :
    connectRem q tm i (rem + 1)
      = if pyTruthy (q i) then ([Event.vAttempt true], true)
        else
          if rem == 0 then ([Event.vAttempt false, Event.logw "cant-get-version"], false)
          else
            ([Event.vAttempt false, Event.logw "cant-get-version"]
               ++ [Event.logi "retry-in", Event.sleep tm] ++ (connectRem q tm (i + 1) rem).1,
             (connectRem q tm (i + 1) rem).2) := rfl

lemma connectRem_allFail (q : Nat → Option String) (tm : Nat) :
    ∀ rem i, (∀ j, i ≤ j → j < i + rem → pyTruthy (q j) = false) →
      countV (connectRem q tm i rem).1 = rem ∧
      sleepSecs (connectRem q tm i rem).1 = List.replicate (rem - 1) tm ∧
      (connectRem q tm i rem).2 = false := by
  intro rem
  induction rem with
  | zero =>
    intro i _
    simp [connectRem]
  | succ r ih =>
    intro i h
    have hqi : pyTruthy (q i) = false := h i le_rfl (by omega)
    cases r with
    | zero =>
      rw [connectRem_succ]
      simp [hqi, isVAttempt]
    | succ r2 =>
      obtain ⟨h1, h2, h3⟩ := ih (i + 1) (fun j hj1 hj2 => h j (by omega) (by omega))
      rw [connectRem_succ]
      simp [hqi, isVAttempt, h1, h2, h3, List.replicate_succ]
      omega

lemma connectRem_firstSuccess (q : Nat → Option String) (tm : Nat) :
    ∀ k rem i, k < rem → pyTruthy (q (i + k)) = true →
      (∀ j, i ≤ j → j < i + k → pyTruthy (q j) = false) →
      countV (connectRem q tm i rem).1 = k + 1 ∧
      sleepSecs (connectRem q tm i rem).1 = List.replicate k tm ∧
      (connectRem q tm i rem).2 = true := by
  intro k
  induction k with
  | zero =>
    intro rem i hk hs _
    cases rem with
    | zero => omega
    | succ r =>
      have hqi : pyTruthy (q i) = true := by simpa using hs
      rw [connectRem_succ]
      simp [hqi, isVAttempt]
  | succ k2 ih =>
    intro rem i hk hs hf
    cases rem with
    | zero => omega
    | succ r =>
      have hqi : pyTruthy (q i) = false := hf i le_rfl (by omega)
      cases r with
      | zero => omega
      | succ r2 =>
        obtain ⟨h1, h2, h3⟩ := ih (r2 + 1) (i + 1) (by omega)
          (by have he : i + 1 + k2 = i + (k2 + 1) := by omega
              rw [he]; exact hs)
          (fun j hj1 hj2 => hf j (by omega) (by omega))
        rw [connectRem_succ]
        simp [hqi, isVAttempt, h1, h2, h3, List.replicate_succ]
        omega

lemma connect_allFail (q : Nat → Option String) (qty tm : Nat)
    (h : ∀ i, i < qty → pyTruthy (q i) = false) :
    countV (connect_docker_service q qty tm).1 = qty ∧
    sleepSecs (connect_docker_service q qty tm).1 = List.replicate (qty - 1) tm ∧
    (connect_docker_service q qty tm).2 = false := by
  obtain ⟨h1, h2, h3⟩ := connectRem_allFail q tm qty 0 (fun j _ hj2 => h j (by omega))
  rw [connect_docker_service.eq_def]
  simp [h1, h2, h3, isVAttempt]

lemma connect_firstSuccess (q : Nat → Option String) (qty tm k : Nat)
    (hk : k < qty) (hs : pyTruthy (q k) = true)
    (hf : ∀ j, j < k → pyTruthy (q j) = false) :
    countV (connect_docker_service q qty tm).1 = k + 1 ∧
    sleepSecs (connect_docker_service q qty tm).1 = List.replicate k tm ∧
    (connect_docker_service q qty tm).2 = true := by
  obtain ⟨h1, h2, h3⟩ := connectRem_firstSuccess q tm k qty 0 hk (by simpa using hs)
    (fun j _ hj2 => hf j (by omega))
  rw [connect_docker_service.eq_def]
  simp [h1, h2, h3, isVAttempt]

/-- C1: with attempts = N >= 1 and interval T, when every version query
fails (transport error, exception, or empty/absent version string) the
connection check performs exactly N version-query attempts, sleeps
exactly N-1 times of T seconds each, and returns a null client; when
attempt number i0 (zero-based) is the first to yield a truthy version
string, the loop stops there: i0 + 1 attempts, i0 sleeps, and the
handle is returned. -/
theorem C1_connect_retry (q : Nat → Option String) (qty tm : Nat) (h1 : 1 ≤ qty) :
    ((∀ i, i < qty → pyTruthy (q i) = false) →
      countV (connect_docker_service q qty tm).1 = qty ∧
      sleepSecs (connect_docker_service q qty tm).1 = List.replicate (qty - 1) tm ∧
      (connect_docker_service q qty tm).2 = false)
  ∧ (∀ i0, i0 < qty → pyTruthy (q i0) = true →
      (∀ j, j < i0 → pyTruthy (q j) = false) →
      countV (connect_docker_service q qty tm).1 = i0 + 1 ∧
      sleepSecs (connect_docker_service q qty tm).1 = List.replicate i0 tm ∧
      (connect_docker_service q qty tm).2 = true) := by
  constructor
  · intro h
    exact connect_allFail q qty tm h
  · intro i0 hk hs hf
    exact connect_firstSuccess q qty tm i0 hk hs hf

/-- C1 witness: with 3 attempts, interval 7, and every query failing,
the loop makes 3 attempts, sleeps twice for 7 seconds, and returns a
null client; with the same policy and the first success at attempt
index 1, it makes 2 attempts, sleeps once, and returns the handle. -/
theorem C1_connect_retry_witness :
    (countV (connect_docker_service (fun _ => none) 3 7).1 = 3 ∧
     sleepSecs (connect_docker_service (fun _ => none) 3 7).1 = List.replicate 2 7 ∧
     (connect_docker_service (fun _ => none) 3 7).2 = false)
  ∧ (countV (connect_docker_service (fun i => if i == 1 then some "18.06" else none) 3 7).1 = 2 ∧
     sleepSecs (connect_docker_service (fun i => if i == 1 then some "18.06" else none) 3 7).1
       = List.replicate 1 7 ∧
     (connect_docker_service (fun i => if i == 1 then some "18.06" else none) 3 7).2 = true) :=
  ⟨(C1_connect_retry (fun _ => none) 3 7 (by decide)).1 (fun i _ => rfl),
   (C1_connect_retry (fun i => if i == 1 then some "18.06" else none) 3 7 (by decide)).2
     1 (by decide) (by decide) (by decide)⟩

/-! ### Health loop lemmas -/

lemma healthRem_succ (info : Nat → Option (Nat × Nat)) (tm i rem : Nat) :
    healthRem info tm i (rem + 1)
      = match info i with
        | none => ([], none)
        | some o =>
          if healthyCounts o then ([Event.infoObs o.1 o.2], some (1, 0, o))
          else
            if rem == 0 then
              ([Event.infoObs o.1 o.2, Event.logw "zero-running"], some (1, 0, o))
            else
              match (healthRem info tm (i + 1) rem).2 with
              | none =>
                ([Event.infoObs o.1 o.2, Event.logw "zero-running"]
                   ++ [Event.logi "wait-for", Event.sleep tm]
                   ++ (healthRem info tm (i + 1) rem).1, none)
              | some (a, s, last) =>
                ([Event.infoObs o.1 o.2, Event.logw "zero-running"]
                   ++ [Event.logi "wait-for", Event.sleep tm]
                   ++ (healthRem info tm (i + 1) rem).1, some (a + 1, s + 1, last)) := rfl

lemma degradedFinal_eq_not_healthy (o : Nat × Nat) : degradedFinal o = !healthyCounts o := by
  rcases o with ⟨t, r⟩
  cases t <;> cases r <;> simp [degradedFinal, healthyCounts]

lemma healthRem_allUnhealthy (info : Nat → Option (Nat × Nat)) (o : Nat → Nat × Nat) (tm : Nat) :
    ∀ rem i, 1 ≤ rem →
      (∀ j, i ≤ j → j < i + rem → info j = some (o j)) →
      (∀ j, i ≤ j → j < i + rem → healthyCounts (o j) = false) →
      (healthRem info tm i rem).2 = some (rem, rem - 1, o (i + rem - 1)) := by
  intro rem
  induction rem with
  | zero => intro i h0; omega
  | succ r ih =>
    intro i _ hinfo hun
    have hi : info i = some (o i) := hinfo i le_rfl (by omega)
    have hu : healthyCounts (o i) = false := hun i le_rfl (by omega)
    cases r with
    | zero =>
      rw [healthRem_succ]
      simp [hi, hu]
    | succ r2 =>
      have hrec := ih (i + 1) (by omega) (fun j a b => hinfo j (by omega) (by omega))
        (fun j a b => hun j (by omega) (by omega))
      rw [healthRem_succ]
      have he : i + 1 + (r2 + 1) - 1 = i + (r2 + 1 + 1) - 1 := by omega
      simp [hi, hu, hrec, he]

lemma healthRem_firstHealthy (info : Nat → Option (Nat × Nat)) (o : Nat → Nat × Nat)
    (tm : Nat) :
    ∀ k rem i, k < rem →
      (∀ j, i ≤ j → j ≤ i + k → info j = some (o j)) →
      healthyCounts (o (i + k)) = true →
      (∀ j, i ≤ j → j < i + k → healthyCounts (o j) = false) →
      (healthRem info tm i rem).2 = some (k + 1, k, o (i + k)) := by
  intro k
  induction k with
  | zero =>
    intro rem i hk hinfo hh _
    cases rem with
    | zero => omega
    | succ r =>
      have hi : info i = some (o i) := hinfo i le_rfl (by omega)
      have hh0 : healthyCounts (o i) = true := by simpa using hh
      rw [healthRem_succ]
      simp [hi, hh0]
  | succ k2 ih =>
    intro rem i hk hinfo hh hf
    cases rem with
    | zero => omega
    | succ r =>
      have hi : info i = some (o i) := hinfo i le_rfl (by omega)
      have hu : healthyCounts (o i) = false := hf i le_rfl (by omega)
      cases r with
      | zero => omega
      | succ r2 =>
        have hrec := ih (r2 + 1) (i + 1) (by omega)
          (fun j a b => hinfo j (by omega) (by omega))
          (by have he : i + 1 + k2 = i + (k2 + 1) := by omega
              rw [he]; exact hh)
          (fun j a b => hf j (by omega) (by omega))
        rw [healthRem_succ]
        have he : i + 1 + k2 = i + (k2 + 1) := by omega
        simp [hi, hu, hrec, he]

/-! ### Event shape lemmas: which loops can emit which events -/

lemma countRestart_eq_zero_iff (evs : List Event) :
    countRestart evs = 0 ↔ ∀ e ∈ evs, isRestartCmd e = false := by
  simp [countRestart, List.length_eq_zero, List.filter_eq_nil]

lemma countV_eq_zero_iff (evs : List Event) :
    countV evs = 0 ↔ ∀ e ∈ evs, isVAttempt e = false := by
  simp [countV, List.length_eq_zero, List.filter_eq_nil]

lemma connectRem_events (q : Nat → Option String) (tm : Nat) :
    ∀ rem i e, e ∈ (connectRem q tm i rem).1 → isRestartCmd e = false := by
  intro rem
  induction rem with
  | zero => intro i e he; simp [connectRem] at he
  | succ r ih =>
    intro i e he
    rw [connectRem_succ] at he
    by_cases hq : pyTruthy (q i) = true
    · simp [hq] at he
      simp [he, isRestartCmd]
    · simp only [Bool.not_eq_true] at hq
      cases r with
      | zero =>
        simp [hq] at he
        rcases he with he | he <;> simp [he, isRestartCmd]
      | succ r2 =>
        simp [hq] at he
        rcases he with he | he | he | he | he
        · simp [he, isRestartCmd]
        · simp [he, isRestartCmd]
        · simp [he, isRestartCmd]
        · simp [he, isRestartCmd]
        · exact ih (i + 1) e he

lemma connect_events (q : Nat → Option String) (qty tm : Nat) :
    ∀ e ∈ (connect_docker_service q qty tm).1, isRestartCmd e = false := by
  intro e he
  rw [connect_docker_service.eq_def] at he
  by_cases hs : (connectRem q tm 0 qty).2 = true
  · simp [hs] at he
    rcases he with he | he
    · exact connectRem_events q tm qty 0 e he
    · simp [he, isRestartCmd]
  · simp only [Bool.not_eq_true] at hs
    simp [hs] at he
    rcases he with he | he
    · exact connectRem_events q tm qty 0 e he
    · simp [he, isRestartCmd]

lemma healthRem_events (info : Nat → Option (Nat × Nat)) (tm : Nat) :
    ∀ rem i e, e ∈ (healthRem info tm i rem).1 →
      isRestartCmd e = false ∧ isVAttempt e = false := by
  intro rem
  induction rem with
  | zero => intro i e he; simp [healthRem] at he
  | succ r ih =>
    intro i e he
    rw [healthRem_succ] at he
    cases hinfo : info i with
    | none => simp [hinfo] at he
    | some o =>
      by_cases hh : healthyCounts o = true
      · simp [hinfo, hh] at he
        simp [he, isRestartCmd, isVAttempt]
      · simp only [Bool.not_eq_true] at hh
        cases r with
        | zero =>
          simp [hinfo, hh] at he
          rcases he with he | he <;> simp [he, isRestartCmd, isVAttempt]
        | succ r2 =>
          rcases hrec : (healthRem info tm (i + 1) (r2 + 1)).2 with _ | ⟨a, s, last⟩ <;>
            · simp [hinfo, hh, hrec] at he
              rcases he with he | he | he | he | he
              · simp [he, isRestartCmd, isVAttempt]
              · simp [he, isRestartCmd, isVAttempt]
              · simp [he, isRestartCmd, isVAttempt]
              · simp [he, isRestartCmd, isVAttempt]
              · exact ih (i + 1) e he

lemma resolveExact_events (g : String → GetRes) :
    ∀ cl d e, e ∈ (resolveExact g cl d).1 →
      isRestartCmd e = false ∧ isVAttempt e = false := by
  intro cl
  induction cl with
  | nil => intro d e he; simp [resolveExact] at he
  | cons x rest ih =>
    intro d e he
    cases hg : g x with
    | found c =>
      simp [resolveExact, hg] at he
      exact ih _ e he
    | notFound =>
      simp [resolveExact, hg] at he
      rcases he with he | he
      · simp [he, isRestartCmd, isVAttempt]
      · exact ih _ e he
    | apiError =>
      simp [resolveExact, hg] at he
      rcases he with he | he
      · simp [he, isRestartCmd, isVAttempt]
      · exact ih _ e he

lemma resolveFilter_events (l : String → Option (List String)) :
    ∀ fl d e, e ∈ (resolveFilter l fl d).1 →
      isRestartCmd e = false ∧ isVAttempt e = false := by
  intro fl
  induction fl with
  | nil => intro d e he; simp [resolveFilter] at he
  | cons f rest ih =>
    intro d e he
    cases hl : l f with
    | some cs =>
      by_cases hcs : cs.length = 0
      · simp [resolveFilter, hl, hcs] at he
        rcases he with he | he
        · simp [he, isRestartCmd, isVAttempt]
        · exact ih _ e he
      · simp [resolveFilter, hl, hcs] at he
        exact ih _ e he
    | none =>
      simp [resolveFilter, hl] at he
      rcases he with he | he
      · simp [he, isRestartCmd, isVAttempt]
      · exact ih _ e he

lemma settleScan_events (r : String → Option String) :
    ∀ d e, e ∈ (settleScan r d).1 →
      isRestartCmd e = false ∧ isVAttempt e = false := by
  intro d
  induction d with
  | nil => intro e he; simp [settleScan] at he
  | cons kv rest ih =>
    intro e he
    obtain ⟨k, v⟩ := kv
    cases v with
    | none => simp [settleScan] at he
    | some c =>
      cases hr : r c with
      | none =>
        simp [settleScan, hr] at he
        simp [he, isRestartCmd, isVAttempt]
      | some st =>
        rcases hrec : (settleScan r rest).2 with _ | d1 <;>
          · simp [settleScan, hr, hrec] at he
            rcases he with he | he
            · simp [he, isRestartCmd, isVAttempt]
            · exact ih e he

lemma settleRem_succ (reload : Nat → String → Option String) (tm i rem : Nat) (d : CDict) :
    settleRem reload tm i (rem + 1) d
      = (let sc := settleScan (reload i) d
         match sc.2 with
         | none => (sc.1, none)
         | some d1 =>
           let d2 := dict_remove_none d1
           if d2.length == 0 then (sc.1, some d2)
           else
             let evs := sc.1 ++ [Event.logi "not-running-list"]
             if rem == 0 then (evs, some d2)
             else
               let r := settleRem reload tm (i + 1) rem d2
               (evs ++ [Event.logi "wait-for", Event.sleep tm] ++ r.1, r.2)) := rfl

lemma settleRem_events (reload : Nat → String → Option String) (tm : Nat) :
    ∀ rem i d e, e ∈ (settleRem reload tm i rem d).1 →
      isRestartCmd e = false ∧ isVAttempt e = false := by
  intro rem
  induction rem with
  | zero => intro i d e he; simp [settleRem] at he
  | succ r ih =>
    intro i d e he
    rw [settleRem_succ] at he
    rcases hsc : (settleScan (reload i) d).2 with _ | d1
    · simp [hsc] at he
      exact settleScan_events (reload i) d e he
    · by_cases hlen : (dict_remove_none d1).length = 0
      · simp [hsc, hlen] at he
        exact settleScan_events (reload i) d e he
      · cases r with
        | zero =>
          simp [hsc, hlen] at he
          rcases he with he | he
          · exact settleScan_events (reload i) d e he
          · simp [he, isRestartCmd, isVAttempt]
        | succ r2 =>
          simp [hsc, hlen] at he
          rcases he with he | he | he | he | he
          · exact settleScan_events (reload i) d e he
          · simp [he, isRestartCmd, isVAttempt]
          · simp [he, isRestartCmd, isVAttempt]
          · simp [he, isRestartCmd, isVAttempt]
          · exact ih (i + 1) (dict_remove_none d1) e he

lemma settlePhase_events (reload : Nat → String → Option String) (qty tm : Nat) (d : CDict) :
    ∀ e ∈ (settlePhase reload qty tm d).1,
      isRestartCmd e = false ∧ isVAttempt e = false := by
  intro e he
  rw [settlePhase.eq_def] at he
  by_cases hd : d.length = 0
  · simp [hd] at he
  · simp [hd] at he
    exact settleRem_events reload tm qty 0 d e he

lemma startPhase_events (f : String → Bool) :
    ∀ d e, e ∈ (startPhase f d).1 →
      isRestartCmd e = false ∧ isVAttempt e = false := by
  intro d
  induction d with
  | nil => intro e he; simp [startPhase] at he
  | cons kv rest ih =>
    intro e he
    obtain ⟨k, v⟩ := kv
    cases v with
    | none =>
      simp [startPhase] at he
      simp [he, isRestartCmd, isVAttempt]
    | some c =>
      by_cases hf : f c = true
      · simp [startPhase, hf] at he
        rcases he with he | he | he
        · simp [he, isRestartCmd, isVAttempt]
        · simp [he, isRestartCmd, isVAttempt]
        · exact ih e he
      · simp only [Bool.not_eq_true] at hf
        simp [startPhase, hf] at he
        rcases he with he | he | he | he
        · simp [he, isRestartCmd, isVAttempt]
        · simp [he, isRestartCmd, isVAttempt]
        · simp [he, isRestartCmd, isVAttempt]
        · exact ih e he

lemma reconcilePhase_events (w : World) (qty tm : Nat) (cl fl : List String) :
    ∀ e ∈ (reconcilePhase w qty tm cl fl).1,
      isRestartCmd e = false ∧ isVAttempt e = false := by
  intro e he
  rw [reconcilePhase.eq_def] at he
  rcases hs : (settlePhase w.reloadSt qty tm
      (dict_remove_none (resolveFilter w.listC fl (resolveExact w.getC cl []).2).2)).2
    with _ | d2
  · simp [hs] at he
    rcases he with he | he | he | he
    · exact resolveExact_events w.getC cl [] e he
    · exact resolveFilter_events w.listC fl _ e he
    · simp [he, isRestartCmd, isVAttempt]
    · exact settlePhase_events w.reloadSt qty tm _ e he
  · simp [hs] at he
    rcases he with he | he | he | he | he
    · exact resolveExact_events w.getC cl [] e he
    · exact resolveFilter_events w.listC fl _ e he
    · simp [he, isRestartCmd, isVAttempt]
    · exact settlePhase_events w.reloadSt qty tm _ e he
    · exact startPhase_events w.startOk d2 e he

lemma restart_docker_counts (ok : Bool) :
    countRestart (restart_docker ok) = 1 ∧ countV (restart_docker ok) = 0 ∧
      sleepSecs (restart_docker ok) = [] := by
  cases ok <;> simp [restart_docker, isRestartCmd, isVAttempt]

/-! ### Suffix-after-restart helpers -/

lemma dropWhile_append_all {p : Event → Bool} :
    ∀ xs ys : List Event, (∀ x ∈ xs, p x = true) →
      (xs ++ ys).dropWhile p = ys.dropWhile p := by
  intro xs
  induction xs with
  | nil => intro ys _; simp
  | cons a l ih =>
    intro ys h
    have ha := h a (by simp)
    simp only [List.cons_append, List.dropWhile_cons, ha, if_true]
    exact ih ys (fun x hx => h x (by simp [hx]))

lemma afterFirstRestart_append (xs ys : List Event)
    (h : ∀ e ∈ xs, isRestartCmd e = false) :
    afterFirstRestart (xs ++ ys) = afterFirstRestart ys := by
  unfold afterFirstRestart
  exact dropWhile_append_all xs ys (fun x hx => by simp [h x hx])

lemma afterFirstRestart_cons_restart (ys : List Event) :
    afterFirstRestart (Event.restartCmd :: ys) = Event.restartCmd :: ys := by
  simp [afterFirstRestart, List.dropWhile_cons, isRestartCmd]

/-! ### Branch equations for the main pipeline -/

lemma mainRun_connectFail (w : World) (qty tm : Nat) (cl fl : List String)
    (hc1 : (connect_docker_service w.version1 qty tm).2 = false) :
    mainRun w qty tm cl fl
      = { trace := (connect_docker_service w.version1 qty tm).1
            ++ (Event.loge "docker-not-available" :: restart_docker w.restartOk),
          outcome := .exited 0 } := by
  simp [mainRun, verify_docker_client, hc1]

lemma mainRun_healthCrash (w : World) (qty tm : Nat) (cl fl : List String)
    (hc1 : (connect_docker_service w.version1 qty tm).2 = true)
    (hh : (healthRem w.info tm 0 qty).2 = none) :
    mainRun w qty tm cl fl
      = { trace := (connect_docker_service w.version1 qty tm).1
            ++ (healthRem w.info tm 0 qty).1,
          outcome := .crashed } := by
  simp [mainRun, hc1, hh]

lemma mainRun_nondegraded (w : World) (qty tm : Nat) (cl fl : List String)
    (a s : Nat) (last : Nat × Nat)
    (hc1 : (connect_docker_service w.version1 qty tm).2 = true)
    (hh : (healthRem w.info tm 0 qty).2 = some (a, s, last))
    (hnd : degradedFinal last = false) :
    mainRun w qty tm cl fl
      = { trace := (connect_docker_service w.version1 qty tm).1
            ++ (healthRem w.info tm 0 qty).1 ++ (reconcilePhase w qty tm cl fl).1,
          outcome := if (reconcilePhase w qty tm cl fl).2 then .completed else .crashed } := by
  simp [mainRun, hc1, hh, hnd]

lemma mainRun_degraded_fail (w : World) (qty tm : Nat) (cl fl : List String)
    (a s : Nat) (last : Nat × Nat)
    (hc1 : (connect_docker_service w.version1 qty tm).2 = true)
    (hh : (healthRem w.info tm 0 qty).2 = some (a, s, last))
    (hd : degradedFinal last = true)
    (hc2 : (connect_docker_service w.version2 qty tm).2 = false) :
    mainRun w qty tm cl fl
      = { trace := (connect_docker_service w.version1 qty tm).1
            ++ (healthRem w.info tm 0 qty).1
            ++ (Event.loge "failed-to-start-containers" :: restart_docker w.restartOk)
            ++ (connect_docker_service w.version2 qty tm).1
            ++ [Event.loge "docker-not-available"],
          outcome := .exited 0 } := by
  simp [mainRun, verify_docker_client, hc1, hh, hd, hc2]

lemma mainRun_degraded_ok (w : World) (qty tm : Nat) (cl fl : List String)
    (a s : Nat) (last : Nat × Nat)
    (hc1 : (connect_docker_service w.version1 qty tm).2 = true)
    (hh : (healthRem w.info tm 0 qty).2 = some (a, s, last))
    (hd : degradedFinal last = true)
    (hc2 : (connect_docker_service w.version2 qty tm).2 = true) :
    mainRun w qty tm cl fl
      = { trace := (connect_docker_service w.version1 qty tm).1
            ++ (healthRem w.info tm 0 qty).1
            ++ (Event.loge "failed-to-start-containers" :: restart_docker w.restartOk)
            ++ (connect_docker_service w.version2 qty tm).1
            ++ (reconcilePhase w qty tm cl fl).1,
          outcome := if (reconcilePhase w qty tm cl fl).2 then .completed else .crashed } := by
  simp [mainRun, hc1, hh, hd, hc2]

/-! ### Derived count facts -/

lemma countRestart_connect_zero (q : Nat → Option String) (qty tm : Nat) :
    countRestart (connect_docker_service q qty tm).1 = 0 :=
  (countRestart_eq_zero_iff _).2 (connect_events q qty tm)

lemma countRestart_health_zero (info : Nat → Option (Nat × Nat)) (tm i rem : Nat) :
    countRestart (healthRem info tm i rem).1 = 0 :=
  (countRestart_eq_zero_iff _).2 (fun e he => (healthRem_events info tm rem i e he).1)

lemma countRestart_reconcile_zero (w : World) (qty tm : Nat) (cl fl : List String) :
    countRestart (reconcilePhase w qty tm cl fl).1 = 0 :=
  (countRestart_eq_zero_iff _).2 (fun e he => (reconcilePhase_events w qty tm cl fl e he).1)

lemma countV_health_zero (info : Nat → Option (Nat × Nat)) (tm i rem : Nat) :
    countV (healthRem info tm i rem).1 = 0 :=
  (countV_eq_zero_iff _).2 (fun e he => (healthRem_events info tm rem i e he).2)

lemma countV_reconcile_zero (w : World) (qty tm : Nat) (cl fl : List String) :
    countV (reconcilePhase w qty tm cl fl).1 = 0 :=
  (countV_eq_zero_iff _).2 (fun e he => (reconcilePhase_events w qty tm cl fl e he).2)

lemma healthyCounts_eq_false_iff (o : Nat × Nat) :
    healthyCounts o = false ↔ 0 < o.1 ∧ o.2 = 0 := by
  rcases o with ⟨t, r⟩
  cases t <;> cases r <;> simp [healthyCounts]

/-- C2: the health-check loop stops immediately, with no further
iteration and no sleep, at the first observation satisfying
`total == 0 or (total > 0 and running > 0)`; a first observation with
total = 0 ends the loop after exactly one iteration whatever the
configured attempts; and (both on the final loop state and on the main
trace, where entering the restart path means a restart command event
occurs) the restart path is entered if and only if the loop exhausted
every attempt on degraded observations, i.e. the last observation has
total > 0 and running == 0. -/
theorem C2_health_loop (w : World) (o : Nat → Nat × Nat) (qty tm : Nat)
    (cl fl : List String) (h1 : 1 ≤ qty) :
    (∀ i0, i0 < qty → (∀ j, j ≤ i0 → w.info j = some (o j)) →
       healthyCounts (o i0) = true → (∀ j, j < i0 → healthyCounts (o j) = false) →
       (healthRem w.info tm 0 qty).2 = some (i0 + 1, i0, o i0))
  ∧ (w.info 0 = some (o 0) → (o 0).1 = 0 →
       (healthRem w.info tm 0 qty).2 = some (1, 0, o 0))
  ∧ ((∀ i, i < qty → w.info i = some (o i)) →
       ∀ a s last, (healthRem w.info tm 0 qty).2 = some (a, s, last) →
         (degradedFinal last = true ↔ ∀ i, i < qty → healthyCounts (o i) = false))
  ∧ ((∀ i, i < qty → w.info i = some (o i)) →
       (connect_docker_service w.version1 qty tm).2 = true →
         (0 < countRestart (mainRun w qty tm cl fl).trace
           ↔ ∀ i, i < qty → healthyCounts (o i) = false)) := by
  have hFirst : ∀ i0, i0 < qty → (∀ j, j ≤ i0 → w.info j = some (o j)) →
      healthyCounts (o i0) = true → (∀ j, j < i0 → healthyCounts (o j) = false) →
      (healthRem w.info tm 0 qty).2 = some (i0 + 1, i0, o i0) := by
    intro i0 hlt hinfo hh hf
    have := healthRem_firstHealthy w.info o tm i0 qty 0 hlt
      (fun j _ hj => hinfo j (by omega)) (by simpa using hh)
      (fun j _ hj => hf j (by omega))
    simpa using this
  refine ⟨hFirst, ?_, ?_, ?_⟩
  · intro hi0 ht0
    have hh : healthyCounts (o 0) = true := by
      simp [healthyCounts, ht0]
    exact hFirst 0 (by omega) (fun j hj => by
      have : j = 0 := by omega
      rw [this]; exact hi0) hh (fun j hj => by omega)
  · intro hinfo a s last hsome
    by_cases hex : ∀ i, i < qty → healthyCounts (o i) = false
    · have hall : (healthRem w.info tm 0 qty).2 = some (qty, qty - 1, o (qty - 1)) := by
        have := healthRem_allUnhealthy w.info o tm qty 0 h1
          (fun j _ hj => hinfo j (by omega)) (fun j _ hj => hex j (by omega))
        simpa using this
      rw [hall] at hsome
      have hlast : last = o (qty - 1) := by
        have h0 := hsome
        simp only [Option.some.injEq, Prod.mk.injEq] at h0
        exact h0.2.2.symm
      constructor
      · intro _; exact hex
      · intro _
        rw [hlast, degradedFinal_eq_not_healthy]
        have hne : healthyCounts (o (qty - 1)) = false := hex _ (by omega)
        simp [hne]
    · have hP : ∃ i, i < qty ∧ healthyCounts (o i) = true := by
        push_neg at hex
        obtain ⟨i, hi, hne⟩ := hex
        exact ⟨i, hi, by simpa using hne⟩
      classical
      let i0 := Nat.find hP
      have hspec : i0 < qty ∧ healthyCounts (o i0) = true := Nat.find_spec hP
      have hmin : ∀ j, j < i0 → healthyCounts (o j) = false := by
        intro j hj
        have := Nat.find_min hP hj
        have hjq : j < qty := by omega
        by_contra hcon
        exact this ⟨hjq, by simpa using hcon⟩
      have hfh := hFirst i0 hspec.1 (fun j hj => hinfo j (by omega)) hspec.2 hmin
      rw [hfh] at hsome
      have hlast : last = o i0 := by
        have h0 := hsome
        simp only [Option.some.injEq, Prod.mk.injEq] at h0
        exact h0.2.2.symm
      constructor
      · intro hdeg
        rw [hlast, degradedFinal_eq_not_healthy, hspec.2] at hdeg
        simp at hdeg
      · intro hall
        exact absurd hspec.2 (by simp [hall i0 hspec.1])
  · intro hinfo hc1
    by_cases hex : ∀ i, i < qty → healthyCounts (o i) = false
    · have hall : (healthRem w.info tm 0 qty).2 = some (qty, qty - 1, o (qty - 1)) := by
        have := healthRem_allUnhealthy w.info o tm qty 0 h1
          (fun j _ hj => hinfo j (by omega)) (fun j _ hj => hex j (by omega))
        simpa using this
      have hd : degradedFinal (o (qty - 1)) = true := by
        rw [degradedFinal_eq_not_healthy]
        have hne : healthyCounts (o (qty - 1)) = false := hex _ (by omega)
        simp [hne]
      constructor
      · intro _; exact hex
      intro _
      by_cases hc2 : (connect_docker_service w.version2 qty tm).2 = true
      · rw [mainRun_degraded_ok w qty tm cl fl _ _ _ hc1 hall hd hc2]
        simp [countRestart_connect_zero, countRestart_health_zero,
          countRestart_reconcile_zero, (restart_docker_counts w.restartOk).1, isRestartCmd]
      · simp only [Bool.not_eq_true] at hc2
        rw [mainRun_degraded_fail w qty tm cl fl _ _ _ hc1 hall hd hc2]
        simp [countRestart_connect_zero, countRestart_health_zero,
          (restart_docker_counts w.restartOk).1, isRestartCmd]
    · have hP : ∃ i, i < qty ∧ healthyCounts (o i) = true := by
        push_neg at hex
        obtain ⟨i, hi, hne⟩ := hex
        exact ⟨i, hi, by simpa using hne⟩
      classical
      let i0 := Nat.find hP
      have hspec : i0 < qty ∧ healthyCounts (o i0) = true := Nat.find_spec hP
      have hmin : ∀ j, j < i0 → healthyCounts (o j) = false := by
        intro j hj
        have := Nat.find_min hP hj
        have hjq : j < qty := by omega
        by_contra hcon
        exact this ⟨hjq, by simpa using hcon⟩
      have hfh : (healthRem w.info tm 0 qty).2 = some (i0 + 1, i0, o i0) := by
        have := healthRem_firstHealthy w.info o tm i0 qty 0 hspec.1
          (fun j _ hj => hinfo j (by omega)) (by simpa using hspec.2)
          (fun j _ hj => hmin j (by omega))
        simpa using this
      have hnd : degradedFinal (o i0) = false := by
        rw [degradedFinal_eq_not_healthy, hspec.2]
        simp
      rw [mainRun_nondegraded w qty tm cl fl _ _ _ hc1 hfh hnd]
      constructor
      · intro hpos
        exfalso
        simp [countRestart_connect_zero, countRestart_health_zero,
          countRestart_reconcile_zero] at hpos
      · intro hall
        exact absurd hspec.2 (by simp [hall i0 hspec.1])

/-- C2 witness: with the benign world (every observation is total = 0,
running = 0) and 3 attempts, the health loop stops after exactly one
iteration with no sleeps. -/
theorem C2_health_loop_witness :
    (healthRem wBase.info 9 0 3).2 = some (1, 0, (0, 0)) :=
  (C2_health_loop wBase (fun _ => (0, 0)) 3 9 [] [] (by decide)).2.1 rfl rfl

lemma afterFirstRestart_cons_other (e : Event) (l : List Event)
    (he : isRestartCmd e = false) :
    afterFirstRestart (e :: l) = afterFirstRestart l := by
  simp [afterFirstRestart, List.dropWhile_cons, he]

lemma mainRun_outcome_ignores_restartOk (w : World) (b : Bool) (qty tm : Nat)
    (cl fl : List String) :
    (mainRun { w with restartOk := b } qty tm cl fl).outcome
      = (mainRun w qty tm cl fl).outcome := by
  by_cases hc1 : (connect_docker_service w.version1 qty tm).2 = true
  · rcases hh : (healthRem w.info tm 0 qty).2 with _ | ⟨a, s, last⟩
    · rw [mainRun_healthCrash { w with restartOk := b } qty tm cl fl hc1 hh,
        mainRun_healthCrash w qty tm cl fl hc1 hh]
    · by_cases hd : degradedFinal last = true
      · by_cases hc2 : (connect_docker_service w.version2 qty tm).2 = true
        · rw [mainRun_degraded_ok { w with restartOk := b } qty tm cl fl a s last hc1 hh hd hc2,
            mainRun_degraded_ok w qty tm cl fl a s last hc1 hh hd hc2]
          rfl
        · simp only [Bool.not_eq_true] at hc2
          rw [mainRun_degraded_fail { w with restartOk := b } qty tm cl fl a s last hc1 hh hd hc2,
            mainRun_degraded_fail w qty tm cl fl a s last hc1 hh hd hc2]
      · simp only [Bool.not_eq_true] at hd
        rw [mainRun_nondegraded { w with restartOk := b } qty tm cl fl a s last hc1 hh hd,
          mainRun_nondegraded w qty tm cl fl a s last hc1 hh hd]
        rfl
  · simp only [Bool.not_eq_true] at hc1
    rw [mainRun_connectFail { w with restartOk := b } qty tm cl fl hc1,
      mainRun_connectFail w qty tm cl fl hc1]

/-- C3: in a run whose daemon is degraded (total > 0 and running == 0)
on every health observation, the restart command is issued exactly
once; the restart's own success or failure does not change the
process outcome (it is ignored); and when every post-restart
reconnection attempt fails, the process terminates via `exit()` with
no second restart, having retried the reconnection with the same
policy (N attempts, N - 1 sleeps of T seconds) after the restart. -/
theorem C3_restart_once (w : World) (o : Nat → Nat × Nat) (qty tm : Nat)
    (cl fl : List String) (h1 : 1 ≤ qty)
    (hc1 : (connect_docker_service w.version1 qty tm).2 = true)
    (hobs : ∀ i, i < qty → w.info i = some (o i))
    (hdeg : ∀ i, i < qty → 0 < (o i).1 ∧ (o i).2 = 0) :
    countRestart (mainRun w qty tm cl fl).trace = 1
  ∧ (mainRun { w with restartOk := true } qty tm cl fl).outcome
      = (mainRun { w with restartOk := false } qty tm cl fl).outcome
  ∧ ((∀ i, i < qty → pyTruthy (w.version2 i) = false) →
      (mainRun w qty tm cl fl).outcome = Outcome.exited 0
      ∧ countRestart (afterFirstRestart (mainRun w qty tm cl fl).trace) = 1
      ∧ countV (afterFirstRestart (mainRun w qty tm cl fl).trace) = qty
      ∧ sleepSecs (afterFirstRestart (mainRun w qty tm cl fl).trace)
          = List.replicate (qty - 1) tm) := by
  have hunh : ∀ i, i < qty → healthyCounts (o i) = false := fun i hi =>
    (healthyCounts_eq_false_iff (o i)).2 (hdeg i hi)
  have hall : (healthRem w.info tm 0 qty).2 = some (qty, qty - 1, o (qty - 1)) := by
    have := healthRem_allUnhealthy w.info o tm qty 0 h1
      (fun j _ hj => hobs j (by omega)) (fun j _ hj => hunh j (by omega))
    simpa using this
  have hd : degradedFinal (o (qty - 1)) = true := by
    rw [degradedFinal_eq_not_healthy]
    have hne : healthyCounts (o (qty - 1)) = false := hunh _ (by omega)
    simp [hne]
  have hite1 : countRestart (if w.restartOk then ([] : List Event)
      else [Event.loge "cant-restart-docker"]) = 0 := by
    cases w.restartOk <;> simp [isRestartCmd]
  have hite2 : countV (if w.restartOk then ([] : List Event)
      else [Event.loge "cant-restart-docker"]) = 0 := by
    cases w.restartOk <;> simp [isVAttempt]
  have hite3 : sleepSecs (if w.restartOk then ([] : List Event)
      else [Event.loge "cant-restart-docker"]) = [] := by
    cases w.restartOk <;> simp
  refine ⟨?_, ?_, ?_⟩
  · by_cases hc2 : (connect_docker_service w.version2 qty tm).2 = true
    · rw [mainRun_degraded_ok w qty tm cl fl _ _ _ hc1 hall hd hc2]
      simp [countRestart_connect_zero, countRestart_health_zero,
        countRestart_reconcile_zero, (restart_docker_counts w.restartOk).1, isRestartCmd]
    · simp only [Bool.not_eq_true] at hc2
      rw [mainRun_degraded_fail w qty tm cl fl _ _ _ hc1 hall hd hc2]
      simp [countRestart_connect_zero, countRestart_health_zero,
        (restart_docker_counts w.restartOk).1, isRestartCmd]
  · rw [mainRun_outcome_ignores_restartOk w true qty tm cl fl,
      mainRun_outcome_ignores_restartOk w false qty tm cl fl]
  · intro hver2
    obtain ⟨hv1, hv2, hc2⟩ := connect_allFail w.version2 qty tm hver2
    rw [mainRun_degraded_fail w qty tm cl fl _ _ _ hc1 hall hd hc2]
    have htr : afterFirstRestart ((connect_docker_service w.version1 qty tm).1
        ++ (healthRem w.info tm 0 qty).1
        ++ (Event.loge "failed-to-start-containers" :: restart_docker w.restartOk)
        ++ (connect_docker_service w.version2 qty tm).1
        ++ [Event.loge "docker-not-available"])
        = Event.restartCmd :: ((if w.restartOk then [] else [Event.loge "cant-restart-docker"])
            ++ ((connect_docker_service w.version2 qty tm).1
              ++ [Event.loge "docker-not-available"])) := by
      simp only [restart_docker, List.append_assoc, List.cons_append, List.nil_append]
      rw [afterFirstRestart_append _ _ (connect_events w.version1 qty tm)]
      rw [afterFirstRestart_append _ _ (fun e he => (healthRem_events w.info tm qty 0 e he).1)]
      rw [afterFirstRestart_cons_other _ _ (by simp [isRestartCmd])]
      rw [afterFirstRestart_cons_other _ _ (by simp [isRestartCmd])]
      rw [afterFirstRestart_cons_restart]
    refine ⟨rfl, ?_, ?_, ?_⟩
    · rw [htr]
      simp [hite1, countRestart_connect_zero, isRestartCmd]
    · rw [htr]
      simp [hite2, hv1, isVAttempt]
    · rw [htr]
      simp [hite3, hv2]

/-- C3 witness: in the concrete degraded scenario (counts 5/0 on every
observation, post-restart reconnection failing), with 2 attempts and
interval 3, the run issues exactly one restart command and exits. -/
theorem C3_restart_once_witness :
    countRestart (mainRun wDegraded 2 3 [] []).trace = 1
  ∧ (mainRun wDegraded 2 3 [] []).outcome = Outcome.exited 0 := by
  have h := C3_restart_once wDegraded (fun _ => (5, 0)) 2 3 [] [] (by decide) (by decide)
    (fun i _ => rfl) (fun i _ => ⟨Nat.succ_pos 4, rfl⟩)
  exact ⟨h.1, (h.2.2 (fun i _ => rfl)).1⟩

/-- C10: when the initial connection sequence fails, the process logs,
triggers exactly one daemon restart, and terminates via `exit()`
without any further version-query attempt after the restart command:
the restart-then-reconnect sequence exists only on the degraded-daemon
path. -/
theorem C10_initial_failure_no_reconnect (w : World) (qty tm : Nat) (cl fl : List String)
    (hc1 : (connect_docker_service w.version1 qty tm).2 = false) :
    (mainRun w qty tm cl fl).outcome = Outcome.exited 0
  ∧ countRestart (mainRun w qty tm cl fl).trace = 1
  ∧ countV (afterFirstRestart (mainRun w qty tm cl fl).trace) = 0 := by
  rw [mainRun_connectFail w qty tm cl fl hc1]
  have hite2 : countV (if w.restartOk then ([] : List Event)
      else [Event.loge "cant-restart-docker"]) = 0 := by
    cases w.restartOk <;> simp [isVAttempt]
  refine ⟨rfl, ?_, ?_⟩
  · simp [countRestart_connect_zero, (restart_docker_counts w.restartOk).1, isRestartCmd]
  · have htr : afterFirstRestart ((connect_docker_service w.version1 qty tm).1
        ++ (Event.loge "docker-not-available" :: restart_docker w.restartOk))
        = Event.restartCmd :: (if w.restartOk then [] else [Event.loge "cant-restart-docker"]) := by
      simp only [restart_docker, List.cons_append, List.nil_append]
      rw [afterFirstRestart_append _ _ (connect_events w.version1 qty tm)]
      rw [afterFirstRestart_cons_other _ _ (by simp [isRestartCmd])]
      rw [afterFirstRestart_cons_other _ _ (by simp [isRestartCmd])]
      rw [afterFirstRestart_cons_restart]
    rw [htr]
    simp [hite2, isVAttempt]

/-- C10 witness: with every version query failing, one attempt and no
interval, the run exits with one restart command and makes no
version-query attempt after it. -/
theorem C10_initial_failure_no_reconnect_witness :
    (mainRun wAllFail 1 0 [] []).outcome = Outcome.exited 0
  ∧ countRestart (mainRun wAllFail 1 0 [] []).trace = 1
  ∧ countV (afterFirstRestart (mainRun wAllFail 1 0 [] []).trace) = 0 :=
  C10_initial_failure_no_reconnect wAllFail 1 0 [] [] (by decide)

/-! ### Dictionary lemmas: canonicity and key uniqueness -/

lemma canon_nil : Canon [] := by
  intro kv h
  simp at h

lemma canon_dictInsert (c : String) (d : CDict) (h : Canon d) :
    Canon (dictInsert c (some c) d) := by
  intro kv hkv
  unfold dictInsert at hkv
  by_cases hany : d.any (fun kv => kv.1 == c) = true
  · simp only [hany, if_true] at hkv
    obtain ⟨kv0, hkv0, heq⟩ := List.mem_map.mp hkv
    by_cases hk : (kv0.1 == c) = true
    · rw [if_pos hk] at heq
      rw [← heq]
    · rw [if_neg hk] at heq
      rw [← heq]
      exact h kv0 hkv0
  · simp only [hany, Bool.false_eq_true, if_false] at hkv
    rcases List.mem_append.mp hkv with hmem | hmem
    · exact h kv hmem
    · simp at hmem
      rw [hmem]

lemma canon_dict_remove_none (d : CDict) (h : Canon d) : Canon (dict_remove_none d) :=
  fun kv hkv => h kv (List.mem_of_mem_filter hkv)

lemma canon_insertAll (cs : List String) : ∀ d, Canon d → Canon (insertAll cs d) := by
  induction cs with
  | nil => intro d h; exact h
  | cons c rest ih => intro d h; exact ih _ (canon_dictInsert c d h)

lemma canon_resolveExact (g : String → GetRes) :
    ∀ cl d, Canon d → Canon (resolveExact g cl d).2 := by
  intro cl
  induction cl with
  | nil => intro d h; exact h
  | cons x rest ih =>
    intro d h
    cases hg : g x with
    | found c => simp only [resolveExact, hg]; exact ih _ (canon_dictInsert c d h)
    | notFound => simp only [resolveExact, hg]; exact ih _ h
    | apiError => simp only [resolveExact, hg]; exact ih _ h

lemma canon_resolveFilter (l : String → Option (List String)) :
    ∀ fl d, Canon d → Canon (resolveFilter l fl d).2 := by
  intro fl
  induction fl with
  | nil => intro d h; exact h
  | cons f rest ih =>
    intro d h
    cases hl : l f with
    | some cs => simp only [resolveFilter, hl]; exact ih _ (canon_insertAll cs d h)
    | none => simp only [resolveFilter, hl]; exact ih _ h

lemma keys_dictInsert (c : String) (v : Option String) (d : CDict) :
    keys (dictInsert c v d)
      = if d.any (fun kv => kv.1 == c) then keys d else keys d ++ [c] := by
  unfold dictInsert keys
  by_cases hany : d.any (fun kv => kv.1 == c) = true
  · simp only [hany, if_true, List.map_map]
    apply List.map_congr_left
    intro kv hkv
    by_cases hk : (kv.1 == c) = true
    · have hkeq : kv.1 = c := beq_iff_eq.mp hk
      simp [hkeq]
    · have hne : kv.1 ≠ c := fun he => hk (by simp [he])
      simp [hne]
  · simp [hany]

lemma not_mem_keys_of_any_false (c : String) (d : CDict)
    (hany : d.any (fun kv => kv.1 == c) = false) : c ∉ keys d := by
  intro hmem
  obtain ⟨kv, hkv, hk⟩ := List.mem_map.mp hmem
  have : d.any (fun kv => kv.1 == c) = true :=
    List.any_eq_true.mpr ⟨kv, hkv, by simp [hk]⟩
  rw [hany] at this
  exact Bool.false_ne_true this

lemma nodup_keys_dictInsert (c : String) (v : Option String) (d : CDict)
    (h : (keys d).Nodup) : (keys (dictInsert c v d)).Nodup := by
  rw [keys_dictInsert]
  by_cases hany : d.any (fun kv => kv.1 == c) = true
  · simp [hany, h]
  · simp only [Bool.not_eq_true] at hany
    have hc := not_mem_keys_of_any_false c d hany
    simp only [hany, Bool.false_eq_true, if_false]
    rw [List.nodup_append]
    exact ⟨h, List.nodup_singleton c, by
      intro a ha hb
      simp at hb
      rw [hb] at ha
      exact hc ha⟩

lemma nodup_keys_insertAll (cs : List String) :
    ∀ d, (keys d).Nodup → (keys (insertAll cs d)).Nodup := by
  induction cs with
  | nil => intro d h; exact h
  | cons c rest ih => intro d h; exact ih _ (nodup_keys_dictInsert c _ d h)

lemma nodup_keys_resolveExact (g : String → GetRes) :
    ∀ cl d, (keys d).Nodup → (keys (resolveExact g cl d).2).Nodup := by
  intro cl
  induction cl with
  | nil => intro d h; exact h
  | cons x rest ih =>
    intro d h
    cases hg : g x with
    | found c => simp only [resolveExact, hg]; exact ih _ (nodup_keys_dictInsert c _ d h)
    | notFound => simp only [resolveExact, hg]; exact ih _ h
    | apiError => simp only [resolveExact, hg]; exact ih _ h

lemma nodup_keys_resolveFilter (l : String → Option (List String)) :
    ∀ fl d, (keys d).Nodup → (keys (resolveFilter l fl d).2).Nodup := by
  intro fl
  induction fl with
  | nil => intro d h; exact h
  | cons f rest ih =>
    intro d h
    cases hl : l f with
    | some cs => simp only [resolveFilter, hl]; exact ih _ (nodup_keys_insertAll cs d h)
    | none => simp only [resolveFilter, hl]; exact ih _ h

lemma nodup_keys_dict_remove_none (d : CDict) (h : (keys d).Nodup) :
    (keys (dict_remove_none d)).Nodup := by
  unfold keys dict_remove_none
  exact h.sublist ((List.filter_sublist d).map (fun kv => kv.1))

/-- C6: for every selector set the resolved target set is keyed by
container name with at most one entry per name (its key list has no
duplicates); in the concrete scenario where the exact name `web` and
the substring filter `we` both match the container `web`, the target
set holds exactly the single entry `web`. -/
theorem C6_dedup :
    (∀ (g : String → GetRes) (l : String → Option (List String)) (cl fl : List String),
       (keys (dict_remove_none (resolveFilter l fl (resolveExact g cl []).2).2)).Nodup)
  ∧ keys (dict_remove_none (resolveFilter listWe ["we"] (resolveExact getWeb ["web"] []).2).2)
      = ["web"] := by
  constructor
  · intro g l cl fl
    exact nodup_keys_dict_remove_none _
      (nodup_keys_resolveFilter l fl _ (nodup_keys_resolveExact g cl [] List.nodup_nil))
  · decide

/-! ### Settle phase lemmas -/

lemma mem_keys_filter_key (d : CDict) (q : String → Bool) (c : String) :
    c ∈ keys (d.filter (fun kv => q kv.1)) ↔ c ∈ keys d ∧ q c = true := by
  unfold keys
  rw [List.mem_map]
  constructor
  · rintro ⟨kv, hkv, rfl⟩
    have hm := List.mem_filter.mp hkv
    exact ⟨List.mem_map.mpr ⟨kv, hm.1, rfl⟩, hm.2⟩
  · rintro ⟨hmem, hq⟩
    obtain ⟨kv, hkv, rfl⟩ := List.mem_map.mp hmem
    exact ⟨kv, List.mem_filter.mpr ⟨hkv, hq⟩, rfl⟩

lemma settleScan_filter (r : String → Option String) :
    ∀ d, Canon d → (∀ kv ∈ d, r kv.1 ≠ none) →
      ∃ d1, (settleScan r d).2 = some d1
        ∧ dict_remove_none d1 = d.filter (fun kv => decide (r kv.1 ≠ some "running")) := by
  intro d
  induction d with
  | nil => exact fun _ _ => ⟨[], rfl, rfl⟩
  | cons kv rest ih =>
    intro hc ht
    obtain ⟨k, v⟩ := kv
    have hv : v = some k := hc (k, v) (by simp)
    subst hv
    rcases hrk : r k with _ | st
    · exact absurd hrk (ht (k, some k) (by simp))
    · obtain ⟨d1, hd1, hfil⟩ := ih (fun kv h => hc kv (by simp [h]))
        (fun kv h => ht kv (by simp [h]))
      refine ⟨(k, if st == "running" then none else some k) :: d1, ?_, ?_⟩
      · simp [settleScan, hrk, hd1]
      · by_cases hst : st = "running"
        · subst hst
          unfold dict_remove_none at hfil ⊢
          simp [List.filter_cons, hrk, hfil]
        · have hb : (st == "running") = false := by simp [hst]
          unfold dict_remove_none at hfil ⊢
          simp [List.filter_cons, hrk, hfil, hb, hst]

lemma settleRem_keys (reload : Nat → String → Option String) (tm : Nat)
    (hrel : ∀ i c, reload i c ≠ none) :
    ∀ rem i d, Canon d →
      ∃ d2, (settleRem reload tm i rem d).2 = some d2 ∧ Canon d2 ∧
        (∀ c, c ∈ keys d2 ↔
          c ∈ keys d ∧ ∀ j, i ≤ j → j < i + rem → reload j c ≠ some "running") := by
  intro rem
  induction rem with
  | zero =>
    intro i d hc
    refine ⟨d, rfl, hc, fun c => ?_⟩
    constructor
    · intro h; exact ⟨h, fun j h1 h2 => by omega⟩
    · intro h; exact h.1
  | succ r ih =>
    intro i d hc
    obtain ⟨d1, hd1, hfil⟩ := settleScan_filter (reload i) d hc (fun kv _ => hrel i kv.1)
    have hcF : Canon (d.filter (fun kv => decide (reload i kv.1 ≠ some "running"))) :=
      fun kv h => hc kv (List.mem_of_mem_filter h)
    have hmemF : ∀ c, c ∈ keys (d.filter (fun kv => decide (reload i kv.1 ≠ some "running")))
        ↔ c ∈ keys d ∧ reload i c ≠ some "running" := by
      intro c
      rw [mem_keys_filter_key d (fun s => decide (reload i s ≠ some "running")) c]
      simp
    rw [settleRem_succ]
    simp only [hd1, hfil]
    by_cases hlen : (d.filter (fun kv => decide (reload i kv.1 ≠ some "running"))).length = 0
    · have hemp : d.filter (fun kv => decide (reload i kv.1 ≠ some "running")) = [] :=
        List.length_eq_zero.mp hlen
      simp only [hlen, beq_self_eq_true, if_true]
      refine ⟨[], by rw [hemp], canon_nil, fun c => ?_⟩
      constructor
      · intro h; simp [keys] at h
      · rintro ⟨hmem, hrun⟩
        have hin : c ∈ keys (d.filter (fun kv => decide (reload i kv.1 ≠ some "running"))) :=
          (hmemF c).mpr ⟨hmem, hrun i le_rfl (by omega)⟩
        rw [hemp] at hin
        simp [keys] at hin
    · have hlen2 : ((d.filter (fun kv => decide (reload i kv.1 ≠ some "running"))).length == 0)
          = false := by
        rw [beq_eq_false_iff_ne]
        exact hlen
      simp only [hlen2, Bool.false_eq_true, if_false]
      cases r with
      | zero =>
        refine ⟨_, rfl, hcF, fun c => ?_⟩
        rw [hmemF c]
        constructor
        · rintro ⟨hmem, hrun⟩
          refine ⟨hmem, fun j h1 h2 => ?_⟩
          have : j = i := by omega
          rw [this]; exact hrun
        · rintro ⟨hmem, hall⟩
          exact ⟨hmem, hall i le_rfl (by omega)⟩
      | succ r2 =>
        obtain ⟨d2, hd2, hcd2, hmem2⟩ := ih (i + 1) _ hcF
        refine ⟨d2, hd2, hcd2, fun c => ?_⟩
        rw [hmem2 c, hmemF c]
        constructor
        · rintro ⟨⟨hmem, hruni⟩, hall⟩
          refine ⟨hmem, fun j h1 h2 => ?_⟩
          by_cases hji : j = i
          · rw [hji]; exact hruni
          · exact hall j (by omega) (by omega)
        · rintro ⟨hmem, hall⟩
          exact ⟨⟨hmem, hall i le_rfl (by omega)⟩,
            fun j h1 h2 => hall j (by omega) (by omega)⟩

lemma settlePhase_keys (reload : Nat → String → Option String) (qty tm : Nat) (d : CDict)
    (hc : Canon d) (hrel : ∀ i c, reload i c ≠ none) :
    ∃ d2, (settlePhase reload qty tm d).2 = some d2 ∧ Canon d2 ∧
      (∀ c, c ∈ keys d2 ↔ c ∈ keys d ∧ ∀ j, j < qty → reload j c ≠ some "running") := by
  unfold settlePhase
  by_cases hd : d.length = 0
  · have hemp : d = [] := List.length_eq_zero.mp hd
    subst hemp
    refine ⟨[], by simp, canon_nil, fun c => ?_⟩
    simp [keys]
  · have hd2 : (d.length == 0) = false := by simp [hd]
    simp only [hd2, Bool.false_eq_true, if_false]
    obtain ⟨d2, h1, h2, h3⟩ := settleRem_keys reload tm hrel qty 0 d hc
    refine ⟨d2, h1, h2, fun c => ?_⟩
    rw [h3 c]
    constructor
    · rintro ⟨hmem, hall⟩
      exact ⟨hmem, fun j hj => hall j (by omega) (by omega)⟩
    · rintro ⟨hmem, hall⟩
      exact ⟨hmem, fun j h1 h2 => hall j (by omega)⟩

/-- C7: the target set never grows after resolution: one settle
iteration (status scan plus tombstone cleanup) only keeps existing
keys, a key disappears in an iteration only when its container was
observed in the running state, and the keys surviving the whole settle
loop are a subset of the keys it started with. -/
theorem C7_targetset_monotone (reload : Nat → String → Option String) (qty tm : Nat)
    (d : CDict) (hc : Canon d) (hrel : ∀ i c, reload i c ≠ none) :
    (∀ i, ∃ d1, (settleScan (reload i) d).2 = some d1
       ∧ (∀ c, c ∈ keys (dict_remove_none d1) → c ∈ keys d)
       ∧ (∀ c, c ∈ keys d → c ∉ keys (dict_remove_none d1) →
            reload i c = some "running"))
  ∧ (∀ d2, (settlePhase reload qty tm d).2 = some d2 →
       ∀ c, c ∈ keys d2 → c ∈ keys d) := by
  constructor
  · intro i
    obtain ⟨d1, hd1, hfil⟩ := settleScan_filter (reload i) d hc (fun kv _ => hrel i kv.1)
    refine ⟨d1, hd1, ?_, ?_⟩
    · intro c hmem
      rw [hfil] at hmem
      exact ((mem_keys_filter_key d (fun s => decide (reload i s ≠ some "running")) c).mp
        hmem).1
    · intro c hmem hnot
      rw [hfil] at hnot
      by_contra hrun
      exact hnot ((mem_keys_filter_key d (fun s => decide (reload i s ≠ some "running")) c).mpr
        ⟨hmem, by simp [hrun]⟩)
  · intro d2 hd2 c hmem
    obtain ⟨d2x, h1, _, h3⟩ := settlePhase_keys reload qty tm d hc hrel
    rw [hd2] at h1
    have hdx : d2x = d2 := Option.some.inj h1.symm
    rw [← hdx] at hmem
    exact ((h3 c).mp hmem).1

/-- C7 witness: a canonical one-entry dictionary whose container is
reported running on every reload: the settle phase keeps no key, and
the kept keys (none) are a subset of the original. -/
theorem C7_targetset_monotone_witness :
    ∃ d1, (settleScan ((fun _ _ => some "running") 0) [("db", some "db")]).2 = some d1
      ∧ (∀ c, c ∈ keys (dict_remove_none d1) → c ∈ keys [("db", some "db")])
      ∧ (∀ c, c ∈ keys [("db", some "db")] → c ∉ keys (dict_remove_none d1) →
           (fun _ _ => some "running") 0 c = some "running") :=
  (C7_targetset_monotone (fun _ _ => some "running") 3 5 [("db", some "db")]
    (by intro kv h; simp at h; subst h; rfl) (by intro i c; simp)).1 0

lemma settleScan_reloads (r : String → Option String) :
    ∀ d, Canon d → (∀ kv ∈ d, r kv.1 ≠ none) →
      ∀ kv ∈ d, Event.reloadCall kv.1 ∈ (settleScan r d).1 := by
  intro d
  induction d with
  | nil => intro _ _ kv h; simp at h
  | cons kv0 rest ih =>
    intro hc ht kv hkv
    obtain ⟨k, v⟩ := kv0
    have hv : v = some k := hc (k, v) (by simp)
    subst hv
    rcases hrk : r k with _ | st
    · exact absurd hrk (ht (k, some k) (by simp))
    · have hrec2 := ih (fun kv h => hc kv (by simp [h])) (fun kv h => ht kv (by simp [h]))
      rcases hrec : (settleScan r rest).2 with _ | d1 <;>
        · simp only [settleScan, hrk, hrec]
          rcases List.mem_cons.mp hkv with h0 | h0
          · rw [h0]
            exact List.mem_cons_self _ _
          · exact List.mem_cons_of_mem _ (hrec2 kv h0)

lemma startPhase_ok (f : String → Bool) :
    ∀ d, Canon d → (startPhase f d).2 = true ∧ startCmds (startPhase f d).1 = keys d := by
  intro d
  induction d with
  | nil => intro _; exact ⟨rfl, rfl⟩
  | cons kv rest ih =>
    intro hc
    obtain ⟨k, v⟩ := kv
    have hv : v = some k := hc (k, v) (by simp)
    subst hv
    obtain ⟨h1, h2⟩ := ih (fun kv h => hc kv (by simp [h]))
    constructor
    · by_cases hf : f k = true <;> simp [startPhase, hf, h1]
    · by_cases hf : f k = true <;> simp [startPhase, hf, h2, keys]

lemma mem_startCmds (evs : List Event) (c : String) :
    c ∈ startCmds evs ↔ Event.startCmd c ∈ evs := by
  unfold startCmds
  rw [List.mem_filterMap]
  constructor
  · rintro ⟨e, he, hm⟩
    cases e <;> simp at hm
    subst hm
    exact he
  · intro he
    exact ⟨Event.startCmd c, he, rfl⟩

lemma startPhase_failure_logged (f : String → Bool) :
    ∀ d, Canon d → ∀ kv ∈ d, f kv.1 = false →
      Event.loge "cant-start-container" ∈ (startPhase f d).1 := by
  intro d
  induction d with
  | nil => intro _ kv h; simp at h
  | cons kv0 rest ih =>
    intro hc kv hkv hf
    obtain ⟨k, v⟩ := kv0
    have hv : v = some k := hc (k, v) (by simp)
    subst hv
    rcases List.mem_cons.mp hkv with h0 | h0
    · rw [h0] at hf
      simp only at hf
      simp [startPhase, hf]
    · have hmem := ih (fun kv h => hc kv (by simp [h])) kv h0 hf
      by_cases hfk : f k = true <;> simp [startPhase, hfk, hmem]

@[simp]
lemma countEvent_nil (e0 : Event) : countEvent e0 [] = 0 := rfl

@[simp]
lemma countEvent_cons (e0 e : Event) (l : List Event) :
    countEvent e0 (e :: l) = (if e = e0 then 1 else 0) + countEvent e0 l := by
  simp only [countEvent, List.filter_cons]
  split <;> simp_all <;> omega

@[simp]
lemma countEvent_append (e0 : Event) (a b : List Event) :
    countEvent e0 (a ++ b) = countEvent e0 a + countEvent e0 b := by
  simp [countEvent, List.filter_append]

lemma settleScan_trace_shape (r : String → Option String) :
    ∀ d, sleepSecs (settleScan r d).1 = []
      ∧ countEvent (Event.logi "not-running-list") (settleScan r d).1 = 0 := by
  intro d
  induction d with
  | nil => exact ⟨rfl, rfl⟩
  | cons kv rest ih =>
    obtain ⟨k, v⟩ := kv
    cases v with
    | none => exact ⟨rfl, rfl⟩
    | some c =>
      cases hr : r c with
      | none =>
        constructor <;> simp [settleScan, hr]
      | some st =>
        rcases hrec : (settleScan r rest).2 with _ | d1 <;>
          · simp only [settleScan, hr, hrec]
            constructor
            · simp [ih.1]
            · simp [ih.2]

lemma survivors_shift (reload : Nat → String → Option String) (d : CDict) (i : Nat) :
    ∀ j, survivors reload
        (d.filter (fun kv => decide (reload i kv.1 ≠ some "running"))) (i + 1) j
      = survivors reload d i (j + 1) := by
  intro j
  induction j with
  | zero => simp [survivors]
  | succ j ih =>
    simp only [survivors, ih]
    have he : i + 1 + j = i + (j + 1) := by omega
    rw [he]

lemma settleRem_early_stop (reload : Nat → String → Option String) (tm : Nat)
    (hrel : ∀ i c, reload i c ≠ none) :
    ∀ m i rem d, Canon d → m < rem →
      (∀ j, j ≤ m → survivors reload d i j ≠ []) →
      survivors reload d i (m + 1) = [] →
      (settleRem reload tm i rem d).2 = some []
      ∧ sleepSecs (settleRem reload tm i rem d).1 = List.replicate m tm
      ∧ countEvent (Event.logi "not-running-list") (settleRem reload tm i rem d).1 = m := by
  intro m
  induction m with
  | zero =>
    intro i rem d hc hm hne hemp
    cases rem with
    | zero => omega
    | succ r =>
      obtain ⟨d1, hd1, hfil⟩ := settleScan_filter (reload i) d hc (fun kv _ => hrel i kv.1)
      have hemp2 : d.filter (fun kv => decide (reload i kv.1 ≠ some "running")) = [] := by
        have := hemp
        simpa [survivors] using this
      have hclean : dict_remove_none d1 = [] := by rw [hfil]; exact hemp2
      rw [settleRem_succ]
      refine ⟨?_, ?_, ?_⟩ <;>
        simp [hd1, hclean, (settleScan_trace_shape (reload i) d).1,
          (settleScan_trace_shape (reload i) d).2]
  | succ m ih =>
    intro i rem d hc hm hne hemp
    cases rem with
    | zero => omega
    | succ r =>
      cases r with
      | zero => omega
      | succ r2 =>
        obtain ⟨d1, hd1, hfil⟩ := settleScan_filter (reload i) d hc (fun kv _ => hrel i kv.1)
        have hcF : Canon (d.filter (fun kv => decide (reload i kv.1 ≠ some "running"))) :=
          fun kv h => hc kv (List.mem_of_mem_filter h)
        have hFne : d.filter (fun kv => decide (reload i kv.1 ≠ some "running")) ≠ [] := by
          have := hne 1 (by omega)
          simpa [survivors] using this
        have hlen : ((d.filter (fun kv => decide (reload i kv.1 ≠ some "running"))).length == 0)
            = false := by
          rw [beq_eq_false_iff_ne]
          intro h0
          exact hFne (List.length_eq_zero.mp h0)
        have hrec := ih (i + 1) (r2 + 1)
          (d.filter (fun kv => decide (reload i kv.1 ≠ some "running"))) hcF (by omega)
          (fun j hj => by
            rw [survivors_shift]
            exact hne (j + 1) (by omega))
          (by rw [survivors_shift]; exact hemp)
        simp only [ne_eq, decide_not] at hrec
        rw [settleRem_succ]
        simp only [hd1]
        rw [hfil]
        simp only [hlen, Bool.false_eq_true, if_false]
        refine ⟨?_, ?_, ?_⟩
        · simpa using hrec.1
        · simp [(settleScan_trace_shape (reload i) d).1, hrec.2.1, List.replicate_succ]
        · simp [(settleScan_trace_shape (reload i) d).2, hrec.2.2]
          omega

lemma settlePhase_early_stop (reload : Nat → String → Option String) (qty tm : Nat)
    (d : CDict) (hc : Canon d) (hrel : ∀ i c, reload i c ≠ none)
    (m : Nat) (hm : m < qty)
    (hne : ∀ j, j ≤ m → survivors reload d 0 j ≠ [])
    (hemp : survivors reload d 0 (m + 1) = []) :
    (settlePhase reload qty tm d).2 = some []
    ∧ sleepSecs (settlePhase reload qty tm d).1 = List.replicate m tm
    ∧ countEvent (Event.logi "not-running-list") (settlePhase reload qty tm d).1 = m := by
  have hdne : d ≠ [] := by
    have := hne 0 (by omega)
    simpa [survivors] using this
  have hlen : (d.length == 0) = false := by
    rw [beq_eq_false_iff_ne]
    intro h0
    exact hdne (List.length_eq_zero.mp h0)
  unfold settlePhase
  simp only [hlen, Bool.false_eq_true, if_false]
  exact settleRem_early_stop reload tm hrel m 0 qty d hc hm hne hemp

/-- C5: the settle loop runs zero iterations on an empty target set;
one iteration keeps exactly the members not observed running; every
member is reloaded in an iteration; the survivors of the whole phase
are exactly the members never observed running within the attempt
bound; a member observed running during some iteration receives no
start command; and the loop ends early as soon as the target set
becomes empty: when the set is nonempty through iterations 0..m and
empties after iteration m < attempts, the phase performs exactly m
sleeps and m still-not-running log lines — none after the set
empties, whatever attempt budget remains. -/
theorem C5_settle_phase (reload : Nat → String → Option String) (qty tm : Nat) (d : CDict)
    (hc : Canon d) (hrel : ∀ i c, reload i c ≠ none) (f : String → Bool) :
    settlePhase reload qty tm ([] : CDict) = ([], some [])
  ∧ (∀ i, ∃ d1, (settleScan (reload i) d).2 = some d1
       ∧ dict_remove_none d1 = d.filter (fun kv => decide (reload i kv.1 ≠ some "running")))
  ∧ (∀ i, ∀ kv ∈ d, Event.reloadCall kv.1 ∈ (settleScan (reload i) d).1)
  ∧ (∃ d2, (settlePhase reload qty tm d).2 = some d2
       ∧ (∀ c, c ∈ keys d2 ↔ c ∈ keys d ∧ ∀ j, j < qty → reload j c ≠ some "running")
       ∧ (∀ c, c ∈ keys d → (∃ j, j < qty ∧ reload j c = some "running") →
            Event.startCmd c ∉ (startPhase f d2).1))
  ∧ (∀ m, m < qty →
       (∀ j, j ≤ m → survivors reload d 0 j ≠ []) →
       survivors reload d 0 (m + 1) = [] →
       (settlePhase reload qty tm d).2 = some []
       ∧ sleepSecs (settlePhase reload qty tm d).1 = List.replicate m tm
       ∧ countEvent (Event.logi "not-running-list") (settlePhase reload qty tm d).1 = m) := by
  refine ⟨rfl, ?_, ?_, ?_, ?_⟩
  · intro i
    exact settleScan_filter (reload i) d hc (fun kv _ => hrel i kv.1)
  · intro i kv hkv
    exact settleScan_reloads (reload i) d hc (fun kv _ => hrel i kv.1) kv hkv
  · obtain ⟨d2, h1, h2, h3⟩ := settlePhase_keys reload qty tm d hc hrel
    refine ⟨d2, h1, h3, ?_⟩
    rintro c hmem ⟨j, hj, hrun⟩ hin
    have hcs : c ∈ startCmds (startPhase f d2).1 := (mem_startCmds _ c).mpr hin
    rw [(startPhase_ok f d2 h2).2] at hcs
    exact absurd hrun (((h3 c).mp hcs).2 j hj)
  · intro m hm hne hemp
    exact settlePhase_early_stop reload qty tm d hc hrel m hm hne hemp

/-- C5 witness: a one-entry canonical set whose container reports
running from the first iteration: the settle phase with 3 attempts
keeps nothing, the entry gets no start command, and the loop ends
after that single iteration with zero sleeps and zero
still-not-running log lines despite the 3-attempt budget. -/
theorem C5_settle_phase_witness :
    settlePhase (fun _ _ => some "running") 3 5 ([] : CDict) = ([], some [])
  ∧ (∃ d2, (settlePhase (fun _ _ => some "running") 3 5 [("db", some "db")]).2 = some d2
       ∧ (∀ c, c ∈ keys d2 ↔ c ∈ keys [("db", some "db")]
            ∧ ∀ j, j < 3 → (fun _ _ => some "running") j c ≠ some "running")
       ∧ (∀ c, c ∈ keys [("db", some "db")] →
            (∃ j, j < 3 ∧ (fun _ _ => some "running") j c = some "running") →
            Event.startCmd c ∉ (startPhase (fun _ => true) d2).1))
  ∧ ((settlePhase (fun _ _ => some "running") 3 5 [("db", some "db")]).2 = some []
     ∧ sleepSecs (settlePhase (fun _ _ => some "running") 3 5 [("db", some "db")]).1
         = List.replicate 0 5
     ∧ countEvent (Event.logi "not-running-list")
         (settlePhase (fun _ _ => some "running") 3 5 [("db", some "db")]).1 = 0) := by
  have h := C5_settle_phase (fun _ _ => some "running") 3 5 [("db", some "db")]
    (by intro kv hm; simp at hm; subst hm; rfl) (by intro i c; simp) (fun _ => true)
  refine ⟨h.1, h.2.2.2.1, h.2.2.2.2 0 (by decide) ?_ (by decide)⟩
  intro j hj
  have hj0 : j = 0 := Nat.le_zero.mp hj
  subst hj0
  decide

/-! ### Resolution isolation lemmas -/

lemma resolveExact_append (g : String → GetRes) :
    ∀ xs ys d,
      (resolveExact g (xs ++ ys) d).1
        = (resolveExact g xs d).1 ++ (resolveExact g ys (resolveExact g xs d).2).1
      ∧ (resolveExact g (xs ++ ys) d).2 = (resolveExact g ys (resolveExact g xs d).2).2 := by
  intro xs
  induction xs with
  | nil => intro ys d; simp [resolveExact]
  | cons x rest ih =>
    intro ys d
    cases hg : g x with
    | found c =>
      simp only [List.cons_append, resolveExact, hg]
      exact ih ys _
    | notFound =>
      obtain ⟨h1, h2⟩ := ih ys d
      simp only [List.cons_append, resolveExact, hg]
      exact ⟨by simp [h1], h2⟩
    | apiError =>
      obtain ⟨h1, h2⟩ := ih ys d
      simp only [List.cons_append, resolveExact, hg]
      exact ⟨by simp [h1], h2⟩

lemma resolveFilter_append (l : String → Option (List String)) :
    ∀ xs ys d,
      (resolveFilter l (xs ++ ys) d).1
        = (resolveFilter l xs d).1 ++ (resolveFilter l ys (resolveFilter l xs d).2).1
      ∧ (resolveFilter l (xs ++ ys) d).2 = (resolveFilter l ys (resolveFilter l xs d).2).2 := by
  intro xs
  induction xs with
  | nil => intro ys d; simp [resolveFilter]
  | cons x rest ih =>
    intro ys d
    cases hl : l x with
    | some cs =>
      obtain ⟨h1, h2⟩ := ih ys (insertAll cs d)
      simp only [List.cons_append, resolveFilter, hl]
      exact ⟨by simp [h1], h2⟩
    | none =>
      obtain ⟨h1, h2⟩ := ih ys d
      simp only [List.cons_append, resolveFilter, hl]
      exact ⟨by simp [h1], h2⟩

/-- C8: failures scoped to one named entity are isolated.  A selector
whose lookup reports not-found or an API error contributes a log line
and nothing else: the resolved dictionary equals the one obtained with
that selector removed, for both selector kinds; and in the start
phase, a start command is issued for every remaining container and a
per-container failure only adds an error log. -/
theorem C8_error_isolation (g : String → GetRes) (l : String → Option (List String))
    (xs ys : List String) (b : String) (f : String → Bool) (d0 : CDict) (hc : Canon d0) :
    (g b = GetRes.notFound →
       (resolveExact g (xs ++ b :: ys) d0).2 = (resolveExact g (xs ++ ys) d0).2
       ∧ Event.logw "container-not-found" ∈ (resolveExact g (xs ++ b :: ys) d0).1)
  ∧ (g b = GetRes.apiError →
       (resolveExact g (xs ++ b :: ys) d0).2 = (resolveExact g (xs ++ ys) d0).2
       ∧ Event.loge "cant-get-container" ∈ (resolveExact g (xs ++ b :: ys) d0).1)
  ∧ (l b = none →
       (resolveFilter l (xs ++ b :: ys) d0).2 = (resolveFilter l (xs ++ ys) d0).2
       ∧ Event.loge "cant-list-containers" ∈ (resolveFilter l (xs ++ b :: ys) d0).1)
  ∧ (startCmds (startPhase f d0).1 = keys d0
       ∧ ∀ kv ∈ d0, f kv.1 = false →
           Event.loge "cant-start-container" ∈ (startPhase f d0).1) := by
  refine ⟨?_, ?_, ?_, (startPhase_ok f d0 hc).2, startPhase_failure_logged f d0 hc⟩
  · intro hg
    obtain ⟨ha1, ha2⟩ := resolveExact_append g xs (b :: ys) d0
    obtain ⟨hb1, hb2⟩ := resolveExact_append g xs ys d0
    constructor
    · rw [ha2, hb2]
      simp [resolveExact, hg]
    · rw [ha1]
      simp [resolveExact, hg]
  · intro hg
    obtain ⟨ha1, ha2⟩ := resolveExact_append g xs (b :: ys) d0
    obtain ⟨hb1, hb2⟩ := resolveExact_append g xs ys d0
    constructor
    · rw [ha2, hb2]
      simp [resolveExact, hg]
    · rw [ha1]
      simp [resolveExact, hg]
  · intro hl
    obtain ⟨ha1, ha2⟩ := resolveFilter_append l xs (b :: ys) d0
    obtain ⟨hb1, hb2⟩ := resolveFilter_append l xs ys d0
    constructor
    · rw [ha2, hb2]
      simp [resolveFilter, hl]
    · rw [ha1]
      simp [resolveFilter, hl]

/-- C8 witness: with the `web`-only lookup oracle, the failing
selector `db` in the middle of the list leaves the resolved dictionary
unchanged and logs a warning, and the one-entry start phase issues its
start command. -/
theorem C8_error_isolation_witness :
    ((resolveExact getWeb (["web"] ++ "db" :: []) []).2
        = (resolveExact getWeb (["web"] ++ []) []).2
      ∧ Event.logw "container-not-found" ∈ (resolveExact getWeb (["web"] ++ "db" :: []) []).1)
  ∧ startCmds (startPhase (fun _ => false) [("web", some "web")]).1
      = keys [("web", some "web")] := by
  have h := C8_error_isolation getWeb listWe ["web"] [] "db" (fun _ => false)
    [("web", some "web")] (by intro kv hm; simp at hm; subst hm; rfl)
  exact ⟨h.1 rfl, h.2.2.2.1⟩

/-! ### Totality of the fallible phases -/

lemma healthRem_total (info : Nat → Option (Nat × Nat)) (tm : Nat)
    (h : ∀ i, info i ≠ none) :
    ∀ rem i, (healthRem info tm i rem).2 ≠ none := by
  intro rem
  induction rem with
  | zero => intro i; simp [healthRem]
  | succ r ih =>
    intro i
    rw [healthRem_succ]
    rcases hinfo : info i with _ | o
    · exact absurd hinfo (h i)
    · by_cases hh : healthyCounts o = true
      · simp [hinfo, hh]
      · simp only [Bool.not_eq_true] at hh
        cases r with
        | zero => simp [hinfo, hh]
        | succ r2 =>
          rcases hrec : (healthRem info tm (i + 1) (r2 + 1)).2 with _ | ⟨a, s, last⟩
          · exact absurd hrec (ih (i + 1))
          · simp [hinfo, hh, hrec]

lemma reconcilePhase_ok (w : World) (qty tm : Nat) (cl fl : List String)
    (hrel : ∀ i c, w.reloadSt i c ≠ none) :
    (reconcilePhase w qty tm cl fl).2 = true := by
  have hcanon : Canon (dict_remove_none
      (resolveFilter w.listC fl (resolveExact w.getC cl []).2).2) :=
    canon_dict_remove_none _ (canon_resolveFilter w.listC fl _
      (canon_resolveExact w.getC cl [] canon_nil))
  obtain ⟨d2, hd2, hcd2, _⟩ := settlePhase_keys w.reloadSt qty tm _ hcanon hrel
  rw [reconcilePhase.eq_def]
  simp only [hd2]
  exact (startPhase_ok w.startOk d2 hcd2).1

lemma connect_logw_first (q : Nat → Option String) (qty tm : Nat) (h1 : 1 ≤ qty)
    (hq : pyTruthy (q 0) = false) :
    Event.logw "cant-get-version" ∈ (connect_docker_service q qty tm).1 := by
  have hmem : Event.logw "cant-get-version" ∈ (connectRem q tm 0 qty).1 := by
    cases qty with
    | zero => omega
    | succ r =>
      rw [connectRem_succ]
      cases r with
      | zero => simp [hq]
      | succ r2 => simp [hq]
  rw [connect_docker_service.eq_def]
  by_cases hs : (connectRem q tm 0 qty).2 = true
  · simp [hs, hmem]
  · simp only [Bool.not_eq_true] at hs
    simp [hs, hmem]

/-- C4 counterexample: in the run where every version query fails (so
no daemon handle can be obtained), the process terminates through
Python `exit()` with no argument, whose exit status is 0 — not the
non-zero status the claim asserts. -/
theorem C4_counterexample :
    (connect_docker_service wAllFail.version1 1 0).2 = false
  ∧ (mainRun wAllFail 1 0 [] []).outcome = Outcome.exited 0
  ∧ ¬ exitStatus (mainRun wAllFail 1 0 [] []).outcome ≠ 0 := by
  refine ⟨by decide, by decide, by decide⟩

/-- C4 amended: when the daemon-info and reload queries do not raise,
the process always terminates with exit status 0: immediately via the
argumentless `exit()` when no handle can be obtained (also after the
one permitted restart), and at natural completion otherwise, even if
individual container starts fail (the start oracle is arbitrary). -/
theorem C4_exit_status (w : World) (qty tm : Nat) (cl fl : List String)
    (hinfo : ∀ i, w.info i ≠ none) (hrel : ∀ i c, w.reloadSt i c ≠ none) :
    exitStatus (mainRun w qty tm cl fl).outcome = 0
  ∧ ((connect_docker_service w.version1 qty tm).2 = false →
       (mainRun w qty tm cl fl).outcome = Outcome.exited 0)
  ∧ ((connect_docker_service w.version1 qty tm).2 = true →
     (connect_docker_service w.version2 qty tm).2 = true →
       (mainRun w qty tm cl fl).outcome = Outcome.completed) := by
  have hrc : (reconcilePhase w qty tm cl fl).2 = true :=
    reconcilePhase_ok w qty tm cl fl hrel
  refine ⟨?_, ?_, ?_⟩
  · by_cases hc1 : (connect_docker_service w.version1 qty tm).2 = true
    · rcases hh : (healthRem w.info tm 0 qty).2 with _ | ⟨a, s, last⟩
      · exact absurd hh (healthRem_total w.info tm hinfo qty 0)
      · by_cases hd : degradedFinal last = true
        · by_cases hc2 : (connect_docker_service w.version2 qty tm).2 = true
          · rw [mainRun_degraded_ok w qty tm cl fl a s last hc1 hh hd hc2]
            simp [hrc, exitStatus]
          · simp only [Bool.not_eq_true] at hc2
            rw [mainRun_degraded_fail w qty tm cl fl a s last hc1 hh hd hc2]
            simp [exitStatus]
        · simp only [Bool.not_eq_true] at hd
          rw [mainRun_nondegraded w qty tm cl fl a s last hc1 hh hd]
          simp [hrc, exitStatus]
    · simp only [Bool.not_eq_true] at hc1
      rw [mainRun_connectFail w qty tm cl fl hc1]
      simp [exitStatus]
  · intro hc1
    rw [mainRun_connectFail w qty tm cl fl hc1]
  · intro hc1 hc2
    rcases hh : (healthRem w.info tm 0 qty).2 with _ | ⟨a, s, last⟩
    · exact absurd hh (healthRem_total w.info tm hinfo qty 0)
    · by_cases hd : degradedFinal last = true
      · rw [mainRun_degraded_ok w qty tm cl fl a s last hc1 hh hd hc2]
        simp [hrc]
      · simp only [Bool.not_eq_true] at hd
        rw [mainRun_nondegraded w qty tm cl fl a s last hc1 hh hd]
        simp [hrc]

/-- C4 witness: the benign world completes naturally with exit
status 0. -/
theorem C4_exit_status_witness :
    exitStatus (mainRun wBase 1 0 [] []).outcome = 0
  ∧ (mainRun wBase 1 0 [] []).outcome = Outcome.completed := by
  have h := C4_exit_status wBase 1 0 [] [] (fun i => by simp [wBase])
    (fun i c => by simp [wBase])
  exact ⟨h.1, h.2.2 (by decide) (by decide)⟩

/-- C9 counterexample: when the first `info()` call raises, the run
ends as an uncaught exception (line 150 has no try/except), and the
trace holds no log event after the connection events: the failure is
neither caught nor logged, contradicting the claim. -/
theorem C9_counterexample :
    (mainRun wInfoRaise 1 0 [] []).outcome = Outcome.crashed
  ∧ (mainRun wInfoRaise 1 0 [] []).trace
      = (connect_docker_service wInfoRaise.version1 1 0).1 := by
  constructor
  · decide
  · decide

/-- C9 amended: every collaborator failure path is caught and logged
except two: the daemon-info query of the health loop (line 150) and
the settle-phase `reload()` (line 198), whose exceptions propagate
uncaught.  With those two operations total, no run crashes; the
concrete reload-raising world shows the second uncaught path; and
each caught path (version query, unit restart, exact lookup, filter
listing, container start) emits its log line. -/
theorem C9_failure_logging (w : World) (qty tm : Nat) (cl fl : List String) :
    ((∀ i, w.info i ≠ none) → (∀ i c, w.reloadSt i c ≠ none) →
       (mainRun w qty tm cl fl).outcome ≠ Outcome.crashed)
  ∧ (mainRun wReloadRaise 1 0 ["db"] []).outcome = Outcome.crashed
  ∧ (∀ q : Nat → Option String, 1 ≤ qty → pyTruthy (q 0) = false →
       Event.logw "cant-get-version" ∈ (connect_docker_service q qty tm).1)
  ∧ Event.loge "cant-restart-docker" ∈ restart_docker false
  ∧ (∀ (g : String → GetRes) (s : String) (xs ys : List String) (d : CDict),
       (g s = GetRes.notFound →
          Event.logw "container-not-found" ∈ (resolveExact g (xs ++ s :: ys) d).1)
       ∧ (g s = GetRes.apiError →
          Event.loge "cant-get-container" ∈ (resolveExact g (xs ++ s :: ys) d).1))
  ∧ (∀ (l : String → Option (List String)) (s : String) (xs ys : List String) (d : CDict),
       l s = none →
         Event.loge "cant-list-containers" ∈ (resolveFilter l (xs ++ s :: ys) d).1)
  ∧ (∀ (f : String → Bool) (d : CDict), Canon d →
       ∀ kv ∈ d, f kv.1 = false →
         Event.loge "cant-start-container" ∈ (startPhase f d).1) := by
  refine ⟨?_, by decide, ?_, by simp [restart_docker], ?_, ?_, ?_⟩
  · intro hinfo hrel
    have hrc : (reconcilePhase w qty tm cl fl).2 = true :=
      reconcilePhase_ok w qty tm cl fl hrel
    by_cases hc1 : (connect_docker_service w.version1 qty tm).2 = true
    · rcases hh : (healthRem w.info tm 0 qty).2 with _ | ⟨a, s, last⟩
      · exact absurd hh (healthRem_total w.info tm hinfo qty 0)
      · by_cases hd : degradedFinal last = true
        · by_cases hc2 : (connect_docker_service w.version2 qty tm).2 = true
          · rw [mainRun_degraded_ok w qty tm cl fl a s last hc1 hh hd hc2]
            simp [hrc]
          · simp only [Bool.not_eq_true] at hc2
            rw [mainRun_degraded_fail w qty tm cl fl a s last hc1 hh hd hc2]
            simp
        · simp only [Bool.not_eq_true] at hd
          rw [mainRun_nondegraded w qty tm cl fl a s last hc1 hh hd]
          simp [hrc]
    · simp only [Bool.not_eq_true] at hc1
      rw [mainRun_connectFail w qty tm cl fl hc1]
      simp
  · intro q hq1 hq0
    exact connect_logw_first q qty tm hq1 hq0
  · intro g s xs ys d
    obtain ⟨ha1, _⟩ := resolveExact_append g xs (s :: ys) d
    constructor
    · intro hg
      rw [ha1]
      simp [resolveExact, hg]
    · intro hg
      rw [ha1]
      simp [resolveExact, hg]
  · intro l s xs ys d hl
    obtain ⟨ha1, _⟩ := resolveFilter_append l xs (s :: ys) d
    rw [ha1]
    simp [resolveFilter, hl]
  · intro f d hc kv hkv hf
    exact startPhase_failure_logged f d hc kv hkv hf

/-- C9 witness: the benign world never crashes, and a failing first
version query emits its warning. -/
theorem C9_failure_logging_witness :
    (mainRun wBase 2 7 [] []).outcome ≠ Outcome.crashed
  ∧ Event.logw "cant-get-version" ∈ (connect_docker_service (fun _ => none) 2 7).1 := by
  have h := C9_failure_logging wBase 2 7 [] []
  exact ⟨h.1 (fun i => by simp [wBase]) (fun i c => by simp [wBase]),
    h.2.2.1 (fun _ => none) (by decide) rfl⟩

end DaemonMonitor
